import Mathlib

/-!
Verification of the EmeraldScript tree-walking evaluator
(`src/interpreter/mod.rs`) and of the legacy `gem` evaluator
(`gem/src/interpreter/mod.rs`), as shallow embeddings in Lean.

Modelling conventions, shared by both embeddings:
* Rust `Result<Value, String>` becomes `Res`: `ok` / `err` mirror
  `Ok` / `Err`; `abort` models a process abort (`panic!`, `expect`,
  `unwrap`, an out-of-bounds `Vec` index write, `process::exit`);
  `timeout` is an artifact of the fuel-based embedding of the
  (possibly diverging) recursive evaluator and has no counterpart in
  the source.  Every evaluator function takes a fuel argument and every
  call passes a structurally smaller fuel, so all definitions compute.
* `f32` is modelled by `Rat` (exact arithmetic); the `as usize` cast is
  the saturating float-to-integer cast of Rust (negative values go to
  0, truncation toward zero, saturation at `usize::MAX`).  Division by
  zero on `Rat` yields 0 where `f32` would yield an infinity; no claim
  depends on that case.
* `HashMap<String, _>` (frames, the heap, object member maps) is
  modelled as an association list without duplicate keys; insertion
  replaces an existing binding, otherwise appends.
* Rust `{:?}` (Debug) formatting of lexer/parser types and of values is
  approximated by the `dbg*` functions below; no claim depends on
  those strings.  `{}` (Display) formatting of values is `render`,
  translated from `impl Display for Value`.
-/

namespace EmScript

/-- Modelled from the spec: the lexer (`Expression`) is not under `src/`;
these are the token shapes the evaluator consumes (identifiers, keywords,
`=`, single-character operators, boolean operators, `[`). -/
inductive Expression where
  | Ident (s : String)
  | Key (s : String)
  | Equal
  | Operator (c : Char)
  | BoolOp (s : String)
  | Lbracket
deriving Repr, DecidableEq

/-- Modelled from the spec: the parser (`ExprNode`) is not under `src/`;
these are the node kinds the evaluator dispatches on (spec section 4.2). -/
inductive ExprNode where
  | Block (v : List ExprNode)
  | Operation (o : Expression) (l : ExprNode) (r : ExprNode)
  | Call (ex : Expression) (args : List ExprNode)
  | MethodCall (m : ExprNode) (args : List ExprNode)
  | StrLiteral (s : String)
  | NumLiteral (n : Rat)
  | BoolLiteral (b : Bool)
  | Name (n : String)
  | Func (n : Expression) (params : List ExprNode) (body : ExprNode)
  | Statement (e : ExprNode)
  | Loop (ty : String) (con : ExprNode) (block : ExprNode)
  | IfStatement (con : ExprNode) (body : ExprNode) (branch : ExprNode)
  | Array (v : List ExprNode)
  | Index (ident : ExprNode) (index : ExprNode)
  | New (name : Expression) (args : List ExprNode)
  | Class (name : Expression) (body : ExprNode)
  | ReturnVal (v : ExprNode)
  | ForLoopDec (dec : ExprNode) (con : ExprNode) (inc : ExprNode)
  | Illegal (s : String)
deriving Repr

/-- The `Value` enum of `src/interpreter/mod.rs`.  `EmObject` (from the
missing `types.rs`, used with `String` keys by `mod.rs`) is inlined as the
association list of members. -/
inductive Value where
  | Null
  | Float (f : Rat)
  | EmString (s : String)
  | EmBool (b : Bool)
  | EmArray (v : List Value)
  | Name (n : String)
  | Function (name : Expression) (params : List Value) (body : ExprNode)
  | Object (members : List (String × Value))
deriving Repr

abbrev EmObject := List (String × Value)

/-- `StackFrame.stack : HashMap<String, Value>` as an association list. -/
abbrev StackFrame := List (String × Value)

/-- The `Runtime` state: the heap of functions/class templates and the
return-in-progress flag.  The builtin-function table is a fixed global
(`builtins` below) rather than a field, since it is never mutated. -/
structure RT where
  heap : List (String × Value)
  returning : Bool
deriving Repr

/-- Clears the `returning` flag (the `self.returning = false` at the end of
`walk_tree`). -/
def RT.clear (rt : RT) : RT := ⟨rt.heap, false⟩

/-- Outcome of a Rust call in the embedding; see the module comment. -/
inductive Res (α : Type) where
  | ok (a : α)
  | err (e : String)
  | abort (e : String)
  | timeout
deriving Repr

def Res.bind : Res α → (α → Res β) → Res β
  | .ok a, f => f a
  | .err e, _ => .err e
  | .abort e, _ => .abort e
  | .timeout, _ => .timeout

instance : Monad Res where
  pure := Res.ok
  bind := Res.bind

abbrev EvalOut := Value × RT × StackFrame

/-- Association-list lookup, mirroring `HashMap::get`. -/
def lookupVar : List (String × Value) → String → Option Value
  | [], _ => none
  | (k, v) :: rest, n => if k = n then some v else lookupVar rest n

/-- Association-list insert, mirroring `HashMap::insert` (replace or add). -/
def setVar : List (String × Value) → String → Value → List (String × Value)
  | [], n, v => [(n, v)]
  | (k, w) :: rest, n, v => if k = n then (n, v) :: rest else (k, w) :: setVar rest n v

/-- `StackFrame::get_var` / `get_var_copy`: absent names read as `Null`. -/
def getVar (fr : StackFrame) (n : String) : Value := (lookupVar fr n).getD .Null

/-- `EmObject::get_prop`. -/
def getProp (e : EmObject) (p : String) : Option Value := lookupVar e p

/-- `EmObject::set_prop`. -/
def setProp (e : EmObject) (p : String) (v : Value) : EmObject := setVar e p v

/-- Modelled from the spec: `builtins.rs` is not under `src/`.  Spec section 6
describes the registry as an external map from identifier to a native function
from evaluated values to one value; `print` is the one builtin exercised by
the spec (its console output is not modelled, its result is `Null`). -/
def builtins (n : String) : Option (List Value → Value) :=
  if n = "print" then some (fun _ => Value.Null) else none

def usizeMax : Nat := 2 ^ 64 - 1

/-- Rust `f as usize` on an `f32`: negative values saturate to 0, otherwise
truncate toward zero, saturating at `usize::MAX`. -/
def f32AsUsize (q : Rat) : Nat := if q < 0 then 0 else min q.floor.toNat usizeMax

/-- Equality test against `Value::EmBool(true)` (the `== Value::EmBool(true)`
conditions of loops and if-statements; `PartialEq` makes this true exactly for
the boolean `true` value). -/
def Value.isTrueVal : Value → Bool
  | .EmBool true => true
  | _ => false

def Value.isFloat : Value → Bool
  | .Float _ => true
  | _ => false

def Value.isArrayVal : Value → Bool
  | .EmArray _ => true
  | _ => false

def ExprNode.isBlock : ExprNode → Bool
  | .Block _ => true
  | _ => false

def ExprNode.isReturnVal : ExprNode → Bool
  | .ReturnVal _ => true
  | _ => false

/-- Modelled from the spec: `ExprNode::inner` lives in the missing parser; the
evaluator uses it to read the property-name text out of a node (spec 4.2
property access, 4.3 method resolution). -/
def ExprNode.inner : ExprNode → String
  | .Name n => n
  | .StrLiteral s => s
  | _ => ""

/-- Display (`{}`) of an `Expression`; approximates the missing lexer impl. -/
def dispExpression : Expression → String
  | .Ident s => s
  | .Key s => s
  | .Equal => "="
  | .Operator c => String.singleton c
  | .BoolOp s => s
  | .Lbracket => "["

/-- Debug (`{:?}`) of an `Expression`; approximation, no claim reads it. -/
def dbgExpression (e : Expression) : String := dispExpression e

/-- Debug (`{:?}`) of an `ExprNode`; approximation, no claim reads it. -/
def dbgExprNode : ExprNode → String := fun _ => "<node>"

/-- Debug (`{:?}`) of a `Value`; approximation, no claim reads it. -/
def dbgValue : Value → String
  | .Null => "Null"
  | .Float q => "Float(" ++ toString q.num ++ ")"
  | .EmString s => "EmString(\"" ++ s ++ "\")"
  | .EmBool b => "EmBool(" ++ toString b ++ ")"
  | .EmArray _ => "EmArray(..)"
  | .Name n => "Name(\"" ++ n ++ "\")"
  | .Function _ _ _ => "Function(..)"
  | .Object _ => "Object(..)"

def dbgOptValue : Option Value → String
  | some v => "Some(" ++ dbgValue v ++ ")"
  | none => "None"

/-- Display of an `f32` number: integral values print without a decimal point
(matching Rust `{}` on e.g. `5.0` printing `5`); non-integral values are
approximated as num/den. -/
def renderNum (q : Rat) : String :=
  if q.den = 1 then toString q.num else toString q.num ++ "/" ++ toString q.den

/-- Panic message of `v[i]` on an out-of-range `Vec` index. -/
def vecOobMsg (len i : Nat) : String :=
  "index out of bounds: the len is " ++ toString len ++ " but the index is " ++ toString i

/-- The `Err` of `Indexable::index` on an in-range miss. -/
def oobIndexMsg (i : Nat) : String :=
  "Index " ++ toString i ++ " out of bounds (I hope I can include line numbers some day)"

/-- Panic message of `.unwrap()` applied to an `Err` (the builtin-argument
evaluation in `do_call`). -/
def unwrapErrMsg (e : String) : String :=
  "called Result::unwrap() on an Err value: " ++ e

/-- The constructor arity `Err` of `do_init` (typo preserved from the source;
note it prints the full parameter count, receiver included). -/
def initArityMsg (nm : String) (plen alen : Nat) : String :=
  "Contrsuctor for " ++ nm ++ " takes " ++ toString plen ++ " arguments, found " ++ toString alen

/-- The method arity `Err` of `do_method`. -/
def methodArityMsg (n nm : String) (plen alen : Nat) : String :=
  "Method " ++ n ++ " for " ++ nm ++ " takes " ++ toString plen ++ " arguments, found " ++ toString alen

/-- The function arity `Err` of `do_call`. -/
def callArityMsg (plen : Nat) (n : String) (alen : Nat) : String :=
  "Expected " ++ toString plen ++ " arguments for " ++ n ++ ", got " ++ toString alen

/-- `Runtime::def_func`: collect the `Name` parameter nodes as placeholder
values, store the function on the heap under its name, yield it. -/
def defFunc (rt : RT) (name : Expression) (params : List ExprNode) (body : ExprNode)
    (fr : StackFrame) : Res EvalOut :=
  match name with
  | .Ident n =>
      let args := params.filterMap fun e =>
        match e with
        | .Name s => some (Value.Name s)
        | _ => none
      let f := Value.Function name args body
      .ok (f, ⟨setVar rt.heap n f, rt.returning⟩, fr)
  | _ => .err ("Expected identifier, found " ++ dbgExpression name)

/-- Writes a value at a nested index path inside a value (used to model the
`&mut` returned by `update_nested_array`; the paths passed in are always
valid by construction, invalid paths leave the value unchanged). -/
def writeIdx : Value → List Nat → Value → Value
  | _, [], x => x
  | .EmArray l, i :: rest, x =>
      match l.get? i with
      | some e => .EmArray (l.set i (writeIdx e rest x))
      | none => .EmArray l
  | v, _ :: _, _ => v

/-- `StackFrame::update_nested_array`.  The `&mut Box<Value>` result is
modelled as the access path (root variable, index chain) paired with the
value currently at that path; `none` in the second component is the `None`
return (the silent no-op paths), and the single write through the reference
(`first = true`) is applied to the frame with `writeIdx`. -/
def updateNestedArray (fr : StackFrame) (ident index : ExprNode) (val : Option Value)
    (first : Bool) : Res (StackFrame × Option (String × List Nat × Value)) :=
  match ident with
  | .Operation o l r =>
      if o ≠ .Lbracket then
        .abort ("Found operation when assigning to array: " ++ dbgExprNode ident)
      else
        match updateNestedArray fr l r none false with
        | .ok (fr1, none) => .ok (fr1, none)
        | .ok (fr1, some (root, is, cur)) =>
            match index with
            | .NumLiteral f =>
                let i := f32AsUsize f
                match cur with
                | .EmArray v =>
                    if first then
                      match val with
                      | some w =>
                          if i < v.length then
                            .ok (setVar fr1 root (writeIdx (getVar fr1 root) (is ++ [i]) w), none)
                          else .abort (vecOobMsg v.length i)
                      | none => .abort "called Option::unwrap() on a None value"
                    else
                      match v.get? i with
                      | some x => .ok (fr1, some (root, is ++ [i], x))
                      | none => .ok (fr1, none)
                | n => .abort ("Expected array, found " ++ dbgValue n)
            | _ => .abort ("Expected number literal, found " ++ dbgExprNode index)
        | .err m => .err m
        | .abort m => .abort m
        | .timeout => .timeout
  | .Name n =>
      match index with
      | .NumLiteral f =>
          let i := f32AsUsize f
          match lookupVar fr n with
          | none => .abort ("Unable to find variable " ++ n)
          | some var =>
              match var with
              | .EmArray v =>
                  match v.get? i with
                  | some x => .ok (fr, some (n, [i], x))
                  | none => .ok (fr, none)
              | _ => .abort ("Expected array, found " ++ dbgValue var)
      | _ => .abort ("Expected number literal, found " ++ dbgExprNode index)
  | _ => .abort ("Unexpected node: " ++ dbgExprNode ident)

/-- Rank of a `Value` variant in declaration order, used by the derived
`PartialOrd` for cross-variant comparisons. -/
def variantRank : Value → Nat
  | .Null => 0
  | .Float _ => 1
  | .EmString _ => 2
  | .EmBool _ => 3
  | .EmArray _ => 4
  | .Name _ => 5
  | .Function _ _ _ => 6
  | .Object _ => 7

def cmpGe : Option Ordering → Bool
  | some .gt => true
  | some .eq => true
  | _ => false

def cmpLe : Option Ordering → Bool
  | some .lt => true
  | some .eq => true
  | _ => false

def cmpLt : Option Ordering → Bool
  | some .lt => true
  | _ => false

def cmpGt : Option Ordering → Bool
  | some .gt => true
  | _ => false

mutual

/-- `PartialEq` on `ExprNode` (derived in the missing parser; fuelled for the
nested recursion, all uses supply ample fuel): structural equality. -/
def beqExprNode : Nat → ExprNode → ExprNode → Bool
  | 0, _, _ => false
  | fuel+1, a, b =>
    match a, b with
    | .Block x, .Block y => beqExprNodeList fuel x y
    | .Operation o1 l1 r1, .Operation o2 l2 r2 =>
        decide (o1 = o2) && beqExprNode fuel l1 l2 && beqExprNode fuel r1 r2
    | .Call e1 a1, .Call e2 a2 => decide (e1 = e2) && beqExprNodeList fuel a1 a2
    | .MethodCall m1 a1, .MethodCall m2 a2 =>
        beqExprNode fuel m1 m2 && beqExprNodeList fuel a1 a2
    | .StrLiteral x, .StrLiteral y => decide (x = y)
    | .NumLiteral x, .NumLiteral y => decide (x = y)
    | .BoolLiteral x, .BoolLiteral y => x == y
    | .Name x, .Name y => decide (x = y)
    | .Func n1 p1 b1, .Func n2 p2 b2 =>
        decide (n1 = n2) && beqExprNodeList fuel p1 p2 && beqExprNode fuel b1 b2
    | .Statement x, .Statement y => beqExprNode fuel x y
    | .Loop t1 c1 b1, .Loop t2 c2 b2 =>
        decide (t1 = t2) && beqExprNode fuel c1 c2 && beqExprNode fuel b1 b2
    | .IfStatement c1 b1 e1, .IfStatement c2 b2 e2 =>
        beqExprNode fuel c1 c2 && beqExprNode fuel b1 b2 && beqExprNode fuel e1 e2
    | .Array x, .Array y => beqExprNodeList fuel x y
    | .Index i1 j1, .Index i2 j2 => beqExprNode fuel i1 i2 && beqExprNode fuel j1 j2
    | .New n1 a1, .New n2 a2 => decide (n1 = n2) && beqExprNodeList fuel a1 a2
    | .Class n1 b1, .Class n2 b2 => decide (n1 = n2) && beqExprNode fuel b1 b2
    | .ReturnVal x, .ReturnVal y => beqExprNode fuel x y
    | .ForLoopDec d1 c1 i1, .ForLoopDec d2 c2 i2 =>
        beqExprNode fuel d1 d2 && beqExprNode fuel c1 c2 && beqExprNode fuel i1 i2
    | .Illegal x, .Illegal y => decide (x = y)
    | _, _ => false

def beqExprNodeList : Nat → List ExprNode → List ExprNode → Bool
  | 0, _, _ => false
  | _+1, [], [] => true
  | fuel+1, x :: xs, y :: ys => beqExprNode fuel x y && beqExprNodeList fuel xs ys
  | _+1, _, _ => false

/-- `PartialEq` on `Value` (fuelled for the nested recursion; all uses supply
ample fuel).  Structural per variant; object members compare as maps. -/
def beqValue : Nat → Value → Value → Bool
  | 0, _, _ => false
  | fuel+1, a, b =>
    match a, b with
    | .Null, .Null => true
    | .Float x, .Float y => decide (x = y)
    | .EmString x, .EmString y => decide (x = y)
    | .EmBool x, .EmBool y => x == y
    | .EmArray x, .EmArray y => beqValueList fuel x y
    | .Name x, .Name y => decide (x = y)
    | .Function n1 p1 b1, .Function n2 p2 b2 =>
        decide (n1 = n2) && beqValueList fuel p1 p2 && beqExprNode fuel b1 b2
    | .Object x, .Object y => beqMembersSub fuel x y && beqMembersSub fuel y x
    | _, _ => false

def beqValueList : Nat → List Value → List Value → Bool
  | 0, _, _ => false
  | _+1, [], [] => true
  | fuel+1, x :: xs, y :: ys => beqValue fuel x y && beqValueList fuel xs ys
  | _+1, _, _ => false

def beqMembersSub : Nat → EmObject → EmObject → Bool
  | 0, _, _ => false
  | _+1, [], _ => true
  | fuel+1, (k, v) :: rest, other =>
      (match lookupVar other k with
       | some w => beqValue fuel v w
       | none => false) && beqMembersSub fuel rest other

/-- `PartialOrd` on `Value` (derived in the source): declaration-order rank
across variants, componentwise within.  Function bodies live in the missing
parser, whose derived order is modelled as: equal values compare equal,
otherwise incomparable (the spec only requires a fixed deterministic order). -/
def valueCmp : Nat → Value → Value → Option Ordering
  | 0, _, _ => none
  | fuel+1, a, b =>
    match a, b with
    | .Null, .Null => some .eq
    | .Float x, .Float y => some (compare x y)
    | .EmString x, .EmString y => some (compare x y)
    | .EmBool x, .EmBool y => some (compare x y)
    | .EmArray x, .EmArray y => valueCmpList fuel x y
    | .Name x, .Name y => some (compare x y)
    | .Function n1 p1 b1, .Function n2 p2 b2 =>
        if decide (n1 = n2) && beqValueList fuel p1 p2 && beqExprNode fuel b1 b2 then
          some .eq
        else none
    | .Object x, .Object y => some (compare x.length y.length)
    | _, _ => some (compare (variantRank a) (variantRank b))

def valueCmpList : Nat → List Value → List Value → Option Ordering
  | 0, _, _ => none
  | _+1, [], [] => some .eq
  | _+1, [], _ :: _ => some .lt
  | _+1, _ :: _, [] => some .gt
  | fuel+1, x :: xs, y :: ys =>
      match valueCmp fuel x y with
      | some .eq => valueCmpList fuel xs ys
      | r => r

end

mutual

/-- `Runtime::walk_tree`: dispatch on the node kind.  The `Block` arm returns
directly (`return Ok(ret)`), skipping the trailing `self.returning = false`;
every other arm goes through `walkTreeArm` and then clears the flag on
success, mirroring `let res = ...; self.returning = false; Ok(res)`. -/
def walkTree : Nat → RT → ExprNode → StackFrame → Res EvalOut
  | 0, _, _, _ => .timeout
  | fuel+1, rt, node, fr =>
    match node with
    | .Block v => blockChildren fuel rt v fr .Null
    | _ =>
      match walkTreeArm fuel rt node fr with
      | .ok (v, rt1, fr1) => .ok (v, RT.clear rt1, fr1)
      | .err m => .err m
      | .abort m => .abort m
      | .timeout => .timeout

/-- The per-node-kind dispatch of `walk_tree` (everything except the `Block`
arm and the trailing flag reset). -/
def walkTreeArm : Nat → RT → ExprNode → StackFrame → Res EvalOut
  | 0, _, _, _ => .timeout
  | fuel+1, rt, node, fr =>
    match node with
    | .Operation o l r => doOperation fuel rt o l r fr
    | .Call ex n => doCall fuel rt ex n fr
    | .MethodCall n args => doMethod fuel rt n args fr
    | .StrLiteral s => .ok (.EmString s, rt, fr)
    | .NumLiteral n => .ok (.Float n, rt, fr)
    | .BoolLiteral b => .ok (.EmBool b, rt, fr)
    | .Name n => .ok (getVar fr n, rt, fr)
    | .Func n p b => defFunc rt n p b fr
    | .Statement e => walkTree fuel rt e fr
    | .Loop ty con block => doLoop fuel rt ty con block fr
    | .IfStatement con body branch => doIf fuel rt con body branch fr
    | .Array v => createArray fuel rt v fr
    | .Index ident index => indexArray fuel rt ident index fr
    | .New name args => doInit fuel rt name args fr
    | .Class name body => defineClass fuel rt name body fr
    | _ => .ok (.Null, rt, fr)

/-- The child loop of the `Block` arm: a `ReturnVal` child is evaluated and
stops the block with its value; after any other child, a set returning flag
stops the block with the current `ret` (initially `Null`). -/
def blockChildren : Nat → RT → List ExprNode → StackFrame → Value → Res EvalOut
  | 0, _, _, _, _ => .timeout
  | _+1, rt, [], fr, ret => .ok (ret, rt, fr)
  | fuel+1, rt, e :: rest, fr, ret =>
    match e with
    | .ReturnVal v =>
        match walkTree fuel rt v fr with
        | .ok (r, rt1, fr1) => .ok (r, rt1, fr1)
        | .err m => .err m
        | .abort m => .abort m
        | .timeout => .timeout
    | _ =>
        match walkTree fuel rt e fr with
        | .ok (_, rt1, fr1) =>
            if rt1.returning then .ok (ret, rt1, fr1)
            else blockChildren fuel rt1 rest fr1 ret
        | .err m => .err m
        | .abort m => .abort m
        | .timeout => .timeout

/-- `Runtime::do_operation`. -/
def doOperation : Nat → RT → Expression → ExprNode → ExprNode → StackFrame → Res EvalOut
  | 0, _, _, _, _, _ => .timeout
  | fuel+1, rt, opr, left, right, fr =>
    match opr with
    | .Equal =>
      match left with
      | .Name n => do
          let (v, rt1, fr1) ← walkTree fuel rt right fr
          .ok (v, rt1, setVar fr1 n v)
      | .Index nExpr iExpr =>
          match nExpr with
          | .Name s => do
              let (index, rt1, fr1) ← walkTree fuel rt iExpr fr
              let (val, rt2, fr2) ← walkTree fuel rt1 right fr1
              match updateArrayIndex fuel fr2 s index val with
              | .ok fr3 => .ok (val, rt2, fr3)
              | .err m => .err m
              | .abort m => .abort m
              | .timeout => .timeout
          | _ => .err ("Error getting name " ++ dbgExprNode nExpr)
      | .Operation o l r =>
          match o with
          | .Lbracket => do
              let (val, rt1, fr1) ← walkTree fuel rt right fr
              match updateNestedArray fr1 l r (some val) true with
              | .ok (fr2, _) => .ok (val, rt1, fr2)
              | .err m => .err m
              | .abort m => .abort m
              | .timeout => .timeout
          | .Operator c =>
              if c = '.' then
                match l with
                | .Name nm => do
                    let (val, rt1, fr1) ← walkTree fuel rt right fr
                    match lookupVar fr1 nm with
                    | some (.Object e) =>
                        match r with
                        | .Name prop =>
                            .ok (val, rt1, setVar fr1 nm (.Object (setProp e prop val)))
                        | _ => .err ("Unexpected symbol " ++ dbgExprNode r)
                    | _ => .err ("Unexpected \"" ++ nm ++ "\"")
                | _ => .err ("Expected name, got " ++ dbgExprNode l)
              else .err ("Unexpected operator " ++ String.singleton c)
          | _ => .err ("Unexpected symbol " ++ dbgExpression o)
      | _ => .err ("Error assigning to variable " ++ dbgExprNode left)
    | .Operator o =>
      if o = '.' then do
        let (lv, rt1, fr1) ← walkTree fuel rt left fr
        match lv with
        | .Object obj =>
            match getProp obj (ExprNode.inner right) with
            | some v => .ok (v, rt1, fr1)
            | none =>
                .err (render fuel lv ++ " has no property " ++ ExprNode.inner right)
        | _ => .err (dbgExprNode left ++ " is not an object")
      else do
        let (l_p, rt1, fr1) ← walkTree fuel rt left fr
        let (r_p, rt2, fr2) ← walkTree fuel rt1 right fr1
        match l_p with
        | .EmString s => .ok (.EmString (s ++ render fuel r_p), rt2, fr2)
        | _ =>
          let f : Rat :=
            match l_p with
            | .Float x => x
            | .Name n =>
                match getVar fr2 n with
                | .Float x => x
                | _ => 0
            | _ => 0
          let r : Rat :=
            match r_p with
            | .Float x => x
            | .Name n =>
                match getVar fr2 n with
                | .Float x => x
                | _ => 0
            | _ => 0
          if o = '+' then .ok (.Float (f + r), rt2, fr2)
          else if o = '-' then .ok (.Float (f - r), rt2, fr2)
          else if o = '*' then .ok (.Float (f * r), rt2, fr2)
          else if o = '/' then .ok (.Float (f / r), rt2, fr2)
          else .err ("Invalid Operator: " ++ String.singleton o)
    | .BoolOp op => do
        let (l_p, rt1, fr1) ← walkTree fuel rt left fr
        let (r_p, rt2, fr2) ← walkTree fuel rt1 right fr1
        match op with
        | "==" => .ok (.EmBool (beqValue fuel l_p r_p), rt2, fr2)
        | "!=" => .ok (.EmBool (!beqValue fuel l_p r_p), rt2, fr2)
        | ">=" => .ok (.EmBool (cmpGe (valueCmp fuel l_p r_p)), rt2, fr2)
        | "<=" => .ok (.EmBool (cmpLe (valueCmp fuel l_p r_p)), rt2, fr2)
        | "<" => .ok (.EmBool (cmpLt (valueCmp fuel l_p r_p)), rt2, fr2)
        | ">" => .ok (.EmBool (cmpGt (valueCmp fuel l_p r_p)), rt2, fr2)
        | _ => .err ("Invalid Operator: " ++ op)
    | .Lbracket => indexArray fuel rt left right fr
    | _ => .ok (.Null, rt, fr)

/-- `StackFrame::update_array_index`: `expect` on an unbound name and
`panic!` on a non-array target are process aborts; a non-`Float` index
silently skips the `if let` (no mutation, no error); an out-of-range write
`v[i] = ...` panics. -/
def updateArrayIndex : Nat → StackFrame → String → Value → Value → Res StackFrame
  | 0, _, _, _, _ => .timeout
  | fuel+1, fr, name, index, val =>
    match lookupVar fr name with
    | none => .abort ("Unable to find variable " ++ name)
    | some var =>
      match index with
      | .Float f =>
          match var with
          | .EmArray v =>
              let i := f32AsUsize f
              if i < v.length then .ok (setVar fr name (.EmArray (v.set i val)))
              else .abort (vecOobMsg v.length i)
          | _ => .abort ("Expected array, found " ++ render fuel var)
      | _ => .ok fr

/-- The operand evaluation of `Runtime::keyword` (the `let tmp = match value
{ Call => do_call, _ => walk_tree }`). -/
def keywordOperand : Nat → RT → ExprNode → StackFrame → Res EvalOut
  | 0, _, _, _ => .timeout
  | fuel+1, rt, value, fr =>
    match value with
    | .Call n args => doCall fuel rt n args fr
    | _ => walkTree fuel rt value fr

/-- `Runtime::keyword`: evaluate the operand (through `do_call` for a nested
call), then `return` sets the returning flag and yields the operand's value;
any other keyword falls through to `Ok(Value::Null)`. -/
def keyword : Nat → RT → Expression → ExprNode → StackFrame → Res EvalOut
  | 0, _, _, _, _ => .timeout
  | fuel+1, rt, name, value, fr =>
    match name with
    | .Key s => do
        let (tmp, rt1, fr1) ← keywordOperand fuel rt value fr
        if s = "return" then .ok (tmp, ⟨rt1.heap, true⟩, fr1)
        else .ok (.Null, rt1, fr1)
    | _ => .ok (.Null, rt, fr)

/-- The builtin-argument evaluation of `do_call`:
`args.iter().map(|e| self.walk_tree(e, frame).unwrap()).collect()` —
note the `.unwrap()`: an argument whose evaluation fails aborts the process
instead of propagating the error. -/
def evalBuiltinArgs : Nat → RT → List ExprNode → StackFrame → Res (List Value × RT × StackFrame)
  | 0, _, _, _ => .timeout
  | _+1, rt, [], fr => .ok ([], rt, fr)
  | fuel+1, rt, e :: rest, fr =>
    match walkTree fuel rt e fr with
    | .ok (v, rt1, fr1) =>
        match evalBuiltinArgs fuel rt1 rest fr1 with
        | .ok (vs, rt2, fr2) => .ok (v :: vs, rt2, fr2)
        | .err m => .err m
        | .abort m => .abort m
        | .timeout => .timeout
    | .err m => .abort (unwrapErrMsg m)
    | .abort m => .abort m
    | .timeout => .timeout

/-- The parameter-binding loop shared by `do_call`, `do_method` and
`do_init`: for each argument position whose parameter placeholder is a
`Name`, evaluate the argument in the caller's frame; a value that is itself
a `Name` is resolved once more against the caller's frame.  Returns the
updated runtime, the caller's frame and the callee frame. -/
def bindArgs : Nat → RT → List Value → List ExprNode → StackFrame → StackFrame →
    Res (RT × StackFrame × StackFrame)
  | 0, _, _, _, _, _ => .timeout
  | _+1, rt, _, [], fr, funcFrame => .ok (rt, fr, funcFrame)
  | fuel+1, rt, params, e :: es, fr, funcFrame =>
    match params with
    | [] => .abort "index out of bounds"
    | p :: ps =>
      match p with
      | .Name arg =>
          match walkTree fuel rt e fr with
          | .ok (val, rt1, fr1) =>
              let funcFrame1 :=
                match val with
                | .Name n2 => setVar funcFrame arg (getVar fr1 n2)
                | _ => setVar funcFrame arg val
              bindArgs fuel rt1 ps es fr1 funcFrame1
          | .err m => .err m
          | .abort m => .abort m
          | .timeout => .timeout
      | _ => bindArgs fuel rt ps es fr funcFrame

/-- `Runtime::do_call`: keyword dispatch, builtin lookup (before the heap),
then heap function lookup with exact arity check and a fresh callee frame. -/
def doCall : Nat → RT → Expression → List ExprNode → StackFrame → Res EvalOut
  | 0, _, _, _, _ => .timeout
  | fuel+1, rt, name, args, fr =>
    match name with
    | .Key _ =>
        match args with
        | a :: _ => keyword fuel rt name a fr
        | [] => .abort (vecOobMsg 0 0)
    | .Ident n =>
        match builtins n with
        | some bf =>
            match evalBuiltinArgs fuel rt args fr with
            | .ok (vals, rt1, fr1) => .ok (bf vals, rt1, fr1)
            | .err m => .err m
            | .abort m => .abort m
            | .timeout => .timeout
        | none =>
          match lookupVar rt.heap n with
          | some (Value.Function _ params body) =>
              if params.length ≠ args.length then
                .err (callArityMsg params.length n args.length)
              else do
                let (rt2, fr2, funcFrame) ← bindArgs fuel rt params args fr []
                let (v, rt3, _) ← walkTree fuel rt2 body funcFrame
                .ok (v, rt3, fr2)
          | some other => .err ("Expected function, found " ++ render fuel other)
          | none => .err ("Couldn't find identifier " ++ n)
    | _ => .err ("Expected keyword or identifier, found " ++ dbgExpression name)

/-- `Runtime::do_method`: evaluate the receiver, resolve the method property,
arity-check against `p.len() - 1` (the receiver slot), run the body in a
fresh frame with `self` bound to the receiver object; the caller's frame is
only used to evaluate arguments.  `p.len() - 1` underflows (debug-build
panic) when the method has no declared parameters; `~name` is `unwrap`ped in
the arity message. -/
def doMethod : Nat → RT → ExprNode → List ExprNode → StackFrame → Res EvalOut
  | 0, _, _, _, _ => .timeout
  | fuel+1, rt, method, args, fr =>
    match method with
    | .Operation _ nameE member => do
        let (recv, rt1, fr1) ← walkTree fuel rt nameE fr
        match recv with
        | .Object e =>
            match getProp e (ExprNode.inner member) with
            | some (Value.Function n p body) =>
                if p.length = 0 then .abort "attempt to subtract with overflow"
                else if args.length ≠ p.length - 1 then
                  match getProp e "~name" with
                  | some nm =>
                      .err (methodArityMsg (dispExpression n) (render fuel nm)
                        p.length args.length)
                  | none => .abort "called Option::unwrap() on a None value"
                else do
                  let (rt2, fr2, funcFrame) ←
                    bindArgs fuel rt1 (p.drop 1) args fr1 (setVar [] "self" (.Object e))
                  let (v, rt3, _) ← walkTree fuel rt2 body funcFrame
                  .ok (v, rt3, fr2)
            | other => .err ("Expected function, got " ++ dbgOptValue other)
        | _ => do
            let (v2, _, _) ← walkTree fuel rt1 nameE fr1
            .err ("Expected object, got " ++ dbgValue v2)
    | _ => .err ("Unexpected expression " ++ dbgExprNode method)

/-- `Runtime::do_if`: the condition must equal `EmBool(true)`; otherwise
recurse into an `IfStatement` branch or evaluate the else node. -/
def doIf : Nat → RT → ExprNode → ExprNode → ExprNode → StackFrame → Res EvalOut
  | 0, _, _, _, _, _ => .timeout
  | fuel+1, rt, condition, body, branches, fr => do
      let (c, rt1, fr1) ← walkTree fuel rt condition fr
      if c.isTrueVal then walkTree fuel rt1 body fr1
      else match branches with
        | .IfStatement con b br => doIf fuel rt1 con b br fr1
        | _ => walkTree fuel rt1 branches fr1

/-- `Runtime::do_loop`: dispatch on the loop-kind string. -/
def doLoop : Nat → RT → String → ExprNode → ExprNode → StackFrame → Res EvalOut
  | 0, _, _, _, _, _ => .timeout
  | fuel+1, rt, ty, condition, block, fr =>
    match ty with
    | "while" => whileLoop fuel rt condition block fr .Null
    | "for" =>
        match condition with
        | .ForLoopDec dec con inc =>
            match dec with
            | .Illegal _ => forLoop fuel rt con inc block fr .Null
            | _ => do
                let (_, rt1, fr1) ← walkTree fuel rt dec fr
                forLoop fuel rt1 con inc block fr1 .Null
        | _ => .ok (.Null, rt, fr)
    | _ => .ok (.Null, rt, fr)

/-- The `while` iteration of `do_loop`: stop when the condition is not the
boolean `true` or when the returning flag is set after the body. -/
def whileLoop : Nat → RT → ExprNode → ExprNode → StackFrame → Value → Res EvalOut
  | 0, _, _, _, _, _ => .timeout
  | fuel+1, rt, condition, block, fr, ret => do
      let (c, rt1, fr1) ← walkTree fuel rt condition fr
      if c.isTrueVal then do
        let (r, rt2, fr2) ← walkTree fuel rt1 block fr1
        if rt2.returning then .ok (r, rt2, fr2)
        else whileLoop fuel rt2 condition block fr2 r
      else .ok (ret, rt1, fr1)

/-- The `for` iteration of `do_loop`: like `while` but running the increment
after each body iteration that was not stopped by the returning flag. -/
def forLoop : Nat → RT → ExprNode → ExprNode → ExprNode → StackFrame → Value → Res EvalOut
  | 0, _, _, _, _, _, _ => .timeout
  | fuel+1, rt, con, inc, block, fr, ret => do
      let (c, rt1, fr1) ← walkTree fuel rt con fr
      if c.isTrueVal then do
        let (r, rt2, fr2) ← walkTree fuel rt1 block fr1
        if rt2.returning then .ok (r, rt2, fr2)
        else do
          let (_, rt3, fr3) ← walkTree fuel rt2 inc fr2
          forLoop fuel rt3 con inc block fr3 r
      else .ok (ret, rt1, fr1)

/-- `Runtime::do_init`: heap lookup of the class template, optional `~init`
constructor with arity check `args.len() == params.len() - 1`, else a plain
clone of the template. -/
def doInit : Nat → RT → Expression → List ExprNode → StackFrame → Res EvalOut
  | 0, _, _, _, _ => .timeout
  | fuel+1, rt, name, initArgs, fr =>
    match name with
    | .Ident n =>
      match lookupVar rt.heap n with
      | none => .err ("Class " ++ n ++ " is not defined")
      | some val =>
        match val with
        | .Object e =>
          match getProp e "~init" with
          | some (.Function _ params body) =>
              if params.length = 0 then .abort "attempt to subtract with overflow"
              else if initArgs.length ≠ params.length - 1 then
                match getProp e "~name" with
                | some nm => .err (initArityMsg (render fuel nm) params.length initArgs.length)
                | none => .abort "called Option::unwrap() on a None value"
              else runInit fuel rt e params body initArgs fr
          | _ => .ok (.Object e, rt, fr)
        | _ => .err ("Expected class, got " ++ render fuel val)
    | _ => .err ("Expected object, found " ++ dbgExpression name)

/-- The constructor run of `do_init` once the arity check has passed: bind
`self` to a clone of the template plus the declared parameters, evaluate the
body in that fresh frame, and yield the final `self` of that frame. -/
def runInit : Nat → RT → EmObject → List Value → ExprNode → List ExprNode → StackFrame →
    Res EvalOut
  | 0, _, _, _, _, _, _ => .timeout
  | fuel+1, rt, e, params, body, initArgs, fr => do
      let (rt2, fr2, funcFrame) ←
        bindArgs fuel rt (params.drop 1) initArgs fr (setVar [] "self" (.Object e))
      let (_, rt3, funcFrame2) ← walkTree fuel rt2 body funcFrame
      .ok (getVar funcFrame2 "self", rt3, fr2)

/-- The element loop of `Runtime::create_array`. -/
def createArrayList : Nat → RT → List ExprNode → StackFrame → Res (List Value × RT × StackFrame)
  | 0, _, _, _ => .timeout
  | _+1, rt, [], fr => .ok ([], rt, fr)
  | fuel+1, rt, e :: rest, fr =>
    match walkTree fuel rt e fr with
    | .ok (v, rt1, fr1) =>
        match createArrayList fuel rt1 rest fr1 with
        | .ok (vs, rt2, fr2) => .ok (v :: vs, rt2, fr2)
        | .err m => .err m
        | .abort m => .abort m
        | .timeout => .timeout
    | .err m => .err m
    | .abort m => .abort m
    | .timeout => .timeout

/-- `Runtime::create_array`. -/
def createArray : Nat → RT → List ExprNode → StackFrame → Res EvalOut
  | 0, _, _, _ => .timeout
  | fuel+1, rt, raw, fr =>
    match createArrayList fuel rt raw fr with
    | .ok (vs, rt1, fr1) => .ok (.EmArray vs, rt1, fr1)
    | .err m => .err m
    | .abort m => .abort m
    | .timeout => .timeout

/-- `Runtime::index_array`: evaluate target and index; the index must be a
`Float` (cast with `as usize`), then `Indexable::index` resolves it. -/
def indexArray : Nat → RT → ExprNode → ExprNode → StackFrame → Res EvalOut
  | 0, _, _, _, _ => .timeout
  | fuel+1, rt, ident, index, fr => do
      let (array, rt1, fr1) ← walkTree fuel rt ident fr
      let (idx, rt2, fr2) ← walkTree fuel rt1 index fr1
      match idx with
      | .Float f =>
          match indexValue fuel array (f32AsUsize f) with
          | .ok v => .ok (v, rt2, fr2)
          | .err m => .err m
          | .abort m => .abort m
          | .timeout => .timeout
      | _ => .err "Index was not a numeber"

/-- `Indexable::index` for `Value`: in-range array reads succeed, past-the-end
reads yield the index `Err`, non-arrays yield the not-indexable `Err`. -/
def indexValue : Nat → Value → Nat → Res Value
  | 0, _, _ => .timeout
  | fuel+1, v, i =>
    match v with
    | .EmArray l =>
        match l.get? i with
        | some x => .ok x
        | none => .err (oobIndexMsg i)
    | _ => .err ("Type " ++ render fuel v ++ " isn't indexable")

/-- `Runtime::define_class`: start the member map with `~name`, walk a Block
body collecting function definitions as methods (each also lands on the heap
via `def_func`), store the template on the heap, yield it.  A non-Block body
skips the member loop. -/
def defineClass : Nat → RT → Expression → ExprNode → StackFrame → Res EvalOut
  | 0, _, _, _, _ => .timeout
  | fuel+1, rt, name, body, fr =>
    match name with
    | .Ident s =>
      let members0 : EmObject := [("~name", .EmString s)]
      match body with
      | .Block v =>
          match classMembers fuel rt v fr members0 with
          | .ok (members, rt1, fr1) =>
              let tmp := Value.Object members
              .ok (tmp, ⟨setVar rt1.heap s tmp, rt1.returning⟩, fr1)
          | .err m => .err m
          | .abort m => .abort m
          | .timeout => .timeout
      | _ =>
          let tmp := Value.Object members0
          .ok (tmp, ⟨setVar rt.heap s tmp, rt.returning⟩, fr)
    | _ => .err "Expected an identifier"

/-- The member-collection loop of `define_class`. -/
def classMembers : Nat → RT → List ExprNode → StackFrame → EmObject →
    Res (EmObject × RT × StackFrame)
  | 0, _, _, _, _ => .timeout
  | _+1, rt, [], fr, members => .ok (members, rt, fr)
  | fuel+1, rt, node :: rest, fr, members =>
    match walkTree fuel rt node fr with
    | .ok (val, rt1, fr1) =>
        match val with
        | .Function fn _ _ =>
            match fn with
            | .Ident fs => classMembers fuel rt1 rest fr1 (setVar members fs val)
            | _ => .err "Expected identifier"
        | er => .err ("Unexpected " ++ dbgValue er ++ " in class definition")
    | .err m => .err m
    | .abort m => .abort m
    | .timeout => .timeout

/-- `repl_run`: walk the tree and render the result. -/
def replRun : Nat → RT → ExprNode → StackFrame → Res String
  | 0, _, _, _ => .timeout
  | fuel+1, rt, tree, fr =>
    match walkTree fuel rt tree fr with
    | .ok (v, _, _) => .ok (render fuel v)
    | .err e => .err e
    | .abort m => .abort m
    | .timeout => .timeout

/-- `impl Display for Value` (`{}` rendering).  An object with a `~display`
function renders by running its body with a fresh `Runtime` and a frame
binding `self` (errors swallowed by `unwrap_or_default`, rendered as "");
otherwise objects render their raw member map (approximated). -/
def render : Nat → Value → String
  | 0, _ => ""
  | fuel+1, v =>
    match v with
    | .Float q => renderNum q
    | .EmString s => s
    | .Name n => n
    | .Null => "null"
    | .Function n _ _ => dbgExpression n ++ "(..)"
    | .EmBool b => toString b
    | .EmArray l => "[" ++ (renderElems fuel l "").dropRight 2 ++ "]"
    | .Object e =>
      match getProp e "~display" with
      | some (.Function _ _ t) =>
          match replRun fuel ⟨[], false⟩ t (setVar [] "self" v) with
          | .ok res => res
          | _ => ""
      | _ => "EmObject(..)"

/-- The element loop of the array Display arm: append each rendered element
plus ", " (strings quoted); the caller pops the trailing two characters. -/
def renderElems : Nat → List Value → String → String
  | 0, _, acc => acc
  | _+1, [], acc => acc
  | fuel+1, val :: rest, acc =>
      let piece :=
        match val with
        | .EmString _ => acc ++ "\"" ++ render fuel val ++ "\", "
        | _ => acc ++ render fuel val ++ ", "
      renderElems fuel rest piece

end

end EmScript

/-!
The legacy evaluator of the `gem` crate (`gem/src/interpreter/mod.rs`).
It has no arrays, objects or recoverable errors: every failure path prints
and calls `process::exit(-1)` or panics, modelled as `abort`.  Its lexer and
parser (also absent from `src/`) have the same shapes as the main crate's,
so `EmScript.Expression` / `EmScript.ExprNode` are reused for its trees.
-/

namespace Gem

open EmScript (Expression ExprNode Res renderNum vecOobMsg dbgExpression dbgExprNode
  beqExprNode f32AsUsize)

/-- The `Value` enum of the gem interpreter (no arrays, no objects). -/
inductive Value where
  | Null
  | Float (f : Rat)
  | EmString (s : String)
  | EmBool (b : Bool)
  | Name (n : String)
  | Function (name : Expression) (params : List Value) (body : ExprNode)
deriving Repr

/-- The gem `Runtime`: heap of defined functions and the returning flag. -/
structure RT where
  heap : List (String × Value)
  returning : Bool
deriving Repr

/-- The gem `StackFrame.stack`. -/
abbrev StackFrame := List (String × Value)

abbrev EvalOut := Value × RT × StackFrame

def lookupVar : List (String × Value) → String → Option Value
  | [], _ => none
  | (k, v) :: rest, n => if k = n then some v else lookupVar rest n

def setVar : List (String × Value) → String → Value → List (String × Value)
  | [], n, v => [(n, v)]
  | (k, w) :: rest, n, v => if k = n then (n, v) :: rest else (k, w) :: setVar rest n v

def getVar (fr : StackFrame) (n : String) : Value := (lookupVar fr n).getD .Null

def Value.isTrueVal : Value → Bool
  | .EmBool true => true
  | _ => false

def Value.isFloat : Value → Bool
  | .Float _ => true
  | _ => false

def Value.isFunctionVal : Value → Bool
  | .Function _ _ _ => true
  | _ => false

def Value.isNameVal : Value → Bool
  | .Name _ => true
  | _ => false

/-- Display (`{}`) for the gem `Value`. -/
def render : Value → String
  | .Float q => renderNum q
  | .EmString s => s
  | .Name n => n
  | .Null => "null"
  | .Function n _ _ => dbgExpression n ++ "(..)"
  | .EmBool b => toString b

/-- Debug (`{:?}`) for the gem `Value`; approximation, no claim reads it. -/
def dbgValue : Value → String
  | .Null => "Null"
  | .Float q => "Float(" ++ toString q.num ++ ")"
  | .EmString s => "EmString(\"" ++ s ++ "\")"
  | .EmBool b => "EmBool(" ++ toString b ++ ")"
  | .Name n => "Name(\"" ++ n ++ "\")"
  | .Function _ _ _ => "Function(..)"

/-- Rank of a gem `Value` variant in declaration order (derived `PartialOrd`). -/
def variantRank : Value → Nat
  | .Null => 0
  | .Float _ => 1
  | .EmString _ => 2
  | .EmBool _ => 3
  | .Name _ => 4
  | .Function _ _ _ => 5

mutual

/-- `PartialEq` for the gem `Value` (fuelled for the nested parameter list). -/
def beqValue : Nat → Value → Value → Bool
  | 0, _, _ => false
  | fuel+1, a, b =>
    match a, b with
    | .Null, .Null => true
    | .Float x, .Float y => decide (x = y)
    | .EmString x, .EmString y => decide (x = y)
    | .EmBool x, .EmBool y => x == y
    | .Name x, .Name y => decide (x = y)
    | .Function n1 p1 b1, .Function n2 p2 b2 =>
        decide (n1 = n2) && beqValueList fuel p1 p2 && beqExprNode fuel b1 b2
    | _, _ => false

def beqValueList : Nat → List Value → List Value → Bool
  | 0, _, _ => false
  | _+1, [], [] => true
  | fuel+1, x :: xs, y :: ys => beqValue fuel x y && beqValueList fuel xs ys
  | _+1, _, _ => false

/-- `PartialOrd` for the gem `Value`: rank across variants, componentwise
within (function order modelled as for the main crate). -/
def valueCmp : Nat → Value → Value → Option Ordering
  | 0, _, _ => none
  | fuel+1, a, b =>
    match a, b with
    | .Null, .Null => some .eq
    | .Float x, .Float y => some (compare x y)
    | .EmString x, .EmString y => some (compare x y)
    | .EmBool x, .EmBool y => some (compare x y)
    | .Name x, .Name y => some (compare x y)
    | .Function n1 p1 b1, .Function n2 p2 b2 =>
        if decide (n1 = n2) && beqValueList fuel p1 p2 && beqExprNode fuel b1 b2 then
          some .eq
        else none
    | _, _ => some (compare (variantRank a) (variantRank b))

end

/-- The gem `Runtime::def_func` (a non-identifier name exits the process). -/
def defFunc (rt : RT) (name : Expression) (params : List ExprNode) (body : ExprNode)
    (fr : StackFrame) : Res EvalOut :=
  match name with
  | .Ident n =>
      let args := params.filterMap fun e =>
        match e with
        | .Name s => some (Value.Name s)
        | _ => none
      let f := Value.Function name args body
      .ok (f, ⟨setVar rt.heap n f, rt.returning⟩, fr)
  | _ => .abort ("Expected identifier, found " ++ dbgExpression name)


mutual

/-- The gem `Runtime::walk_tree` (returns a bare `Value`; all failure paths
are process aborts). -/
def walkTree : Nat → RT → ExprNode → StackFrame → Res EvalOut
  | 0, _, _, _ => .timeout
  | fuel+1, rt, node, fr =>
    match node with
    | .Block v => blockChildren fuel rt v fr .Null
    | _ =>
      match walkTreeArm fuel rt node fr with
      | .ok (v, rt1, fr1) => .ok (v, ⟨rt1.heap, false⟩, fr1)
      | .err m => .err m
      | .abort m => .abort m
      | .timeout => .timeout

def walkTreeArm : Nat → RT → ExprNode → StackFrame → Res EvalOut
  | 0, _, _, _ => .timeout
  | fuel+1, rt, node, fr =>
    match node with
    | .Operation o l r => doOperation fuel rt o l r fr
    | .Call ex n => doCall fuel rt ex n fr
    | .StrLiteral s => .ok (.EmString s, rt, fr)
    | .NumLiteral n => .ok (.Float n, rt, fr)
    | .BoolLiteral b => .ok (.EmBool b, rt, fr)
    | .Name n => .ok (getVar fr n, rt, fr)
    | .Func n p b => defFunc rt n p b fr
    | .Statement e => walkTree fuel rt e fr
    | .Loop ty con block => doLoop fuel rt ty con block fr
    | .IfStatement con body branch => doIf fuel rt con body branch fr
    | _ => .ok (.Null, rt, fr)

def blockChildren : Nat → RT → List ExprNode → StackFrame → Value → Res EvalOut
  | 0, _, _, _, _ => .timeout
  | _+1, rt, [], fr, ret => .ok (ret, rt, fr)
  | fuel+1, rt, e :: rest, fr, ret =>
    match e with
    | .ReturnVal v =>
        match walkTree fuel rt v fr with
        | .ok (r, rt1, fr1) => .ok (r, rt1, fr1)
        | .err m => .err m
        | .abort m => .abort m
        | .timeout => .timeout
    | _ =>
        match walkTree fuel rt e fr with
        | .ok (_, rt1, fr1) =>
            if rt1.returning then .ok (ret, rt1, fr1)
            else blockChildren fuel rt1 rest fr1 ret
        | .err m => .err m
        | .abort m => .abort m
        | .timeout => .timeout

/-- The gem `Runtime::do_operation`.  Assignment only accepts a `Name` on the
left and yields `Value::Null`; there is no string concatenation: any
non-numeric operand of arithmetic (strings included) defaults to 0. -/
def doOperation : Nat → RT → Expression → ExprNode → ExprNode → StackFrame → Res EvalOut
  | 0, _, _, _, _, _ => .timeout
  | fuel+1, rt, opr, left, right, fr =>
    match opr with
    | .Equal =>
        match left with
        | .Name n => do
            let (v, rt1, fr1) ← walkTree fuel rt right fr
            .ok (.Null, rt1, setVar fr1 n v)
        | _ => .abort ("Expected name, found " ++ dbgExprNode left)
    | .Operator o => do
        let (l_p, rt1, fr1) ← walkTree fuel rt left fr
        let (r_p, rt2, fr2) ← walkTree fuel rt1 right fr1
        let f : Rat :=
          match l_p with
          | .Float x => x
          | .Name n =>
              match getVar fr2 n with
              | .Float x => x
              | _ => 0
          | _ => 0
        let r : Rat :=
          match r_p with
          | .Float x => x
          | .Name n =>
              match getVar fr2 n with
              | .Float x => x
              | _ => 0
          | _ => 0
        if o = '+' then .ok (.Float (f + r), rt2, fr2)
        else if o = '-' then .ok (.Float (f - r), rt2, fr2)
        else if o = '*' then .ok (.Float (f * r), rt2, fr2)
        else if o = '/' then .ok (.Float (f / r), rt2, fr2)
        else .abort ("Invalid Operator: " ++ String.singleton o)
    | .BoolOp op => do
        let (l_p, rt1, fr1) ← walkTree fuel rt left fr
        let (r_p, rt2, fr2) ← walkTree fuel rt1 right fr1
        match op with
        | "==" => .ok (.EmBool (beqValue fuel l_p r_p), rt2, fr2)
        | "!=" => .ok (.EmBool (!beqValue fuel l_p r_p), rt2, fr2)
        | ">=" => .ok (.EmBool (EmScript.cmpGe (valueCmp fuel l_p r_p)), rt2, fr2)
        | "<=" => .ok (.EmBool (EmScript.cmpLe (valueCmp fuel l_p r_p)), rt2, fr2)
        | "<" => .ok (.EmBool (EmScript.cmpLt (valueCmp fuel l_p r_p)), rt2, fr2)
        | ">" => .ok (.EmBool (EmScript.cmpGt (valueCmp fuel l_p r_p)), rt2, fr2)
        | _ => .abort ("Invalid Operator: " ++ op)
    | _ => .ok (.Null, rt, fr)

/-- The gem `Runtime::keyword`: `print` evaluates (and prints, unmodelled) its
operand; a `Function` result is evaluated a second time for printing.
`return` sets the returning flag *before* evaluating its operand, then yields
the operand's value.  Everything falls through to `Value::Null` except
`return`. -/
def keyword : Nat → RT → Expression → ExprNode → StackFrame → Res EvalOut
  | 0, _, _, _, _ => .timeout
  | fuel+1, rt, name, value, fr =>
    match name with
    | .Key s =>
        match s with
        | "print" =>
            match value with
            | .Call n args => do
                let (_, rt1, fr1) ← doCall fuel rt n args fr
                .ok (.Null, rt1, fr1)
            | _ => do
                let (tmp, rt1, fr1) ← walkTree fuel rt value fr
                match tmp with
                | .Function _ _ _ => do
                    let (_, rt2, fr2) ← walkTree fuel rt1 value fr1
                    .ok (.Null, rt2, fr2)
                | _ => .ok (.Null, rt1, fr1)
        | "return" =>
            match value with
            | .Call n args => doCall fuel ⟨rt.heap, true⟩ n args fr
            | _ => walkTree fuel ⟨rt.heap, true⟩ value fr
        | _ => .ok (.Null, rt, fr)
    | _ => .ok (.Null, rt, fr)

/-- The gem `Runtime::do_call`: an unknown identifier panics (`HashMap`
indexing), an arity mismatch panics, a non-function heap entry exits. -/
def doCall : Nat → RT → Expression → List ExprNode → StackFrame → Res EvalOut
  | 0, _, _, _, _ => .timeout
  | fuel+1, rt, name, args, fr =>
    match name with
    | .Key _ =>
        match args with
        | a :: _ => keyword fuel rt name a fr
        | [] => .abort (vecOobMsg 0 0)
    | .Ident n =>
        match lookupVar rt.heap n with
        | none => .abort "no entry found for key"
        | some (Value.Function _ params body) =>
            if params.length ≠ args.length then
              .abort ("Expected " ++ toString params.length ++ " arguments for " ++ n ++
                ", got " ++ toString args.length)
            else do
              let (rt2, fr2, funcFrame) ← bindArgs fuel rt params args fr []
              let (v, rt3, _) ← walkTree fuel rt2 body funcFrame
              .ok (v, rt3, fr2)
        | some other => .abort ("Expected function, found " ++ render other)
    | _ => .abort ("Expected keyword or identifier, found " ++ dbgExpression name)

def bindArgs : Nat → RT → List Value → List ExprNode → StackFrame → StackFrame →
    Res (RT × StackFrame × StackFrame)
  | 0, _, _, _, _, _ => .timeout
  | _+1, rt, _, [], fr, funcFrame => .ok (rt, fr, funcFrame)
  | fuel+1, rt, params, e :: es, fr, funcFrame =>
    match params with
    | [] => .abort "index out of bounds"
    | p :: ps =>
      match p with
      | .Name arg =>
          match walkTree fuel rt e fr with
          | .ok (val, rt1, fr1) =>
              let funcFrame1 :=
                match val with
                | .Name n2 => setVar funcFrame arg (getVar fr1 n2)
                | _ => setVar funcFrame arg val
              bindArgs fuel rt1 ps es fr1 funcFrame1
          | .err m => .err m
          | .abort m => .abort m
          | .timeout => .timeout
      | _ => bindArgs fuel rt ps es fr funcFrame

def doLoop : Nat → RT → String → ExprNode → ExprNode → StackFrame → Res EvalOut
  | 0, _, _, _, _, _ => .timeout
  | fuel+1, rt, ty, condition, block, fr =>
    match ty with
    | "while" => whileLoop fuel rt condition block fr .Null
    | "for" =>
        match condition with
        | .ForLoopDec dec con inc =>
            match dec with
            | .Illegal _ => forLoop fuel rt con inc block fr .Null
            | _ => do
                let (_, rt1, fr1) ← walkTree fuel rt dec fr
                forLoop fuel rt1 con inc block fr1 .Null
        | _ => .ok (.Null, rt, fr)
    | _ => .ok (.Null, rt, fr)

def whileLoop : Nat → RT → ExprNode → ExprNode → StackFrame → Value → Res EvalOut
  | 0, _, _, _, _, _ => .timeout
  | fuel+1, rt, condition, block, fr, ret => do
      let (c, rt1, fr1) ← walkTree fuel rt condition fr
      if c.isTrueVal then do
        let (r, rt2, fr2) ← walkTree fuel rt1 block fr1
        if rt2.returning then .ok (r, rt2, fr2)
        else whileLoop fuel rt2 condition block fr2 r
      else .ok (ret, rt1, fr1)

def forLoop : Nat → RT → ExprNode → ExprNode → ExprNode → StackFrame → Value → Res EvalOut
  | 0, _, _, _, _, _, _ => .timeout
  | fuel+1, rt, con, inc, block, fr, ret => do
      let (c, rt1, fr1) ← walkTree fuel rt con fr
      if c.isTrueVal then do
        let (r, rt2, fr2) ← walkTree fuel rt1 block fr1
        if rt2.returning then .ok (r, rt2, fr2)
        else do
          let (_, rt3, fr3) ← walkTree fuel rt2 inc fr2
          forLoop fuel rt3 con inc block fr3 r
      else .ok (ret, rt1, fr1)

def doIf : Nat → RT → ExprNode → ExprNode → ExprNode → StackFrame → Res EvalOut
  | 0, _, _, _, _, _ => .timeout
  | fuel+1, rt, condition, body, branches, fr => do
      let (c, rt1, fr1) ← walkTree fuel rt condition fr
      if c.isTrueVal then walkTree fuel rt1 body fr1
      else match branches with
        | .IfStatement con b br => doIf fuel rt1 con b br fr1
        | _ => walkTree fuel rt1 branches fr1

end


end Gem

namespace EmScript

/-- An empty runtime: `Runtime::new()` (empty heap, flag down; the builtin
table is the global `builtins`). -/
def rt0 : RT := ⟨[], false⟩

/-- A method body `self.x = 5;` used to exercise receiver mutation. -/
def sampleMethodBody : ExprNode :=
  .Block [.Statement (.Operation .Equal
    (.Operation (.Operator '.') (.Name "self") (.Name "x")) (.NumLiteral 5))]

/-- An object with one method `m(self)` whose body mutates `self.x`. -/
def sampleReceiver : Value :=
  .Object [("~name", .EmString "C"),
    ("m", .Function (.Ident "m") [.Name "self"] sampleMethodBody)]

/-- A constructor body `self.x = x;`. -/
def sampleInitBody : ExprNode :=
  .Block [.Statement (.Operation .Equal
    (.Operation (.Operator '.') (.Name "self") (.Name "x")) (.Name "x"))]

/-- A class template `C` with `~init(self, x)`. -/
def sampleClass : Value :=
  .Object [("~name", .EmString "C"),
    ("~init", .Function (.Ident "~init") [.Name "self", .Name "x"] sampleInitBody)]

/-- A runtime whose heap holds the class `C`. -/
def rtC : RT := ⟨[("C", sampleClass)], false⟩

theorem ok_bind (a : α) (f : α → Res β) : (Res.ok a >>= f) = f a := rfl

theorem err_bind (e : String) (f : α → Res β) : (Res.err e >>= f) = .err e := rfl

theorem abort_bind (e : String) (f : α → Res β) : (Res.abort e >>= f) = .abort e := rfl

theorem timeout_bind (f : α → Res β) : ((Res.timeout : Res α) >>= f) = .timeout := rfl

theorem lookupVar_setVar_self (l : List (String × Value)) (n : String) (v : Value) :
    lookupVar (setVar l n v) n = some v := by
  induction l with
  | nil => simp [setVar, lookupVar]
  | cons hd tl ih =>
      obtain ⟨k, w⟩ := hd
      by_cases hk : k = n <;> simp [setVar, lookupVar, hk, ih]

theorem getq_set_self (l : List Value) (i : Nat) (a : Value) (h : i < l.length) :
    (l.set i a).get? i = some a := by
  induction l generalizing i with
  | nil => simp at h
  | cons hd tl ih =>
      cases i with
      | zero => simp
      | succ j => simpa using ih j (by simpa using h)

theorem RT.clear_clear (rt : RT) : RT.clear (RT.clear rt) = RT.clear rt := rfl

theorem walkTree_block (fuel : Nat) (rt : RT) (v : List ExprNode) (fr : StackFrame) :
    walkTree (fuel+1) rt (.Block v) fr = blockChildren fuel rt v fr .Null := rfl

theorem walkTree_operation (fuel : Nat) (rt : RT) (o : Expression) (l r : ExprNode)
    (fr : StackFrame) :
    walkTree (fuel+2) rt (.Operation o l r) fr =
      match doOperation fuel rt o l r fr with
      | .ok (v, rt1, fr1) => .ok (v, RT.clear rt1, fr1)
      | .err m => .err m
      | .abort m => .abort m
      | .timeout => .timeout := rfl

theorem walkTree_index (fuel : Nat) (rt : RT) (i j : ExprNode) (fr : StackFrame) :
    walkTree (fuel+2) rt (.Index i j) fr =
      match indexArray fuel rt i j fr with
      | .ok (v, rt1, fr1) => .ok (v, RT.clear rt1, fr1)
      | .err m => .err m
      | .abort m => .abort m
      | .timeout => .timeout := rfl

theorem walkTree_methodCall (fuel : Nat) (rt : RT) (m : ExprNode) (args : List ExprNode)
    (fr : StackFrame) :
    walkTree (fuel+2) rt (.MethodCall m args) fr =
      match doMethod fuel rt m args fr with
      | .ok (v, rt1, fr1) => .ok (v, RT.clear rt1, fr1)
      | .err m => .err m
      | .abort m => .abort m
      | .timeout => .timeout := rfl

theorem walkTree_call (fuel : Nat) (rt : RT) (ex : Expression) (args : List ExprNode)
    (fr : StackFrame) :
    walkTree (fuel+2) rt (.Call ex args) fr =
      match doCall fuel rt ex args fr with
      | .ok (v, rt1, fr1) => .ok (v, RT.clear rt1, fr1)
      | .err m => .err m
      | .abort m => .abort m
      | .timeout => .timeout := rfl

/-- Evaluating a bare name reads the frame (absent names read as `Null`),
touches nothing, and comes back with the returning flag cleared. -/
theorem walkTree_name_ok {g : Nat} {rt : RT} {n : String} {fr : StackFrame}
    {out : EvalOut} (h : walkTree g rt (.Name n) fr = .ok out) :
    out = (getVar fr n, RT.clear rt, fr) := by
  match g with
  | 0 => simp [walkTree] at h
  | 1 => simp [walkTree, walkTreeArm] at h
  | g+2 =>
      simp only [walkTree, walkTreeArm] at h
      exact ((Res.ok.injEq _ _).mp h.symm).symm ▸ rfl

/-- C7: for the `+` operator, a `String` left operand yields the
concatenation of the left string with the rendered right value; the rule is
asymmetric — a `Number` left operand with a `String` right operand does not
concatenate: the string right operand defaults to 0 and the result is the
left number plus 0. -/
theorem c7_plus_string_asymmetry (fuel : Nat) (rt rt1 rt2 : RT)
    (fr fr1 fr2 : StackFrame) (left right : ExprNode) :
    (∀ s rv, walkTree fuel rt left fr = .ok (.EmString s, rt1, fr1) →
      walkTree fuel rt1 right fr1 = .ok (rv, rt2, fr2) →
      doOperation (fuel+1) rt (.Operator '+') left right fr =
        .ok (.EmString (s ++ render fuel rv), rt2, fr2)) ∧
    (∀ q s2, walkTree fuel rt left fr = .ok (.Float q, rt1, fr1) →
      walkTree fuel rt1 right fr1 = .ok (.EmString s2, rt2, fr2) →
      doOperation (fuel+1) rt (.Operator '+') left right fr =
        .ok (.Float (q + 0), rt2, fr2)) := by
  constructor
  · intro s rv h1 h2
    simp only [doOperation, h1, h2, ok_bind]
    rfl
  · intro q s2 h1 h2
    simp only [doOperation, h1, h2, ok_bind]
    rfl

theorem c7_plus_string_asymmetry_witness :
    (doOperation 5 rt0 (.Operator '+') (.StrLiteral "a") (.NumLiteral 1) [] =
      .ok (.EmString "a1", rt0, [])) ∧
    (doOperation 5 rt0 (.Operator '+') (.NumLiteral 2) (.StrLiteral "b") [] =
      .ok (.Float 2, rt0, [])) := by
  constructor
  · exact (c7_plus_string_asymmetry 4 rt0 rt0 rt0 [] [] []
      (.StrLiteral "a") (.NumLiteral 1)).1 "a" (.Float 1) rfl rfl
  · have h := (c7_plus_string_asymmetry 4 rt0 rt0 rt0 [] [] []
      (.NumLiteral 2) (.StrLiteral "b")).2 2 "b" rfl rfl
    simpa using h

/-- C8: for every arithmetic operator among `+ - * /`, a `String` left
operand short-circuits to string concatenation with the rendered right value
before the operator is consulted, so `"a" - 1`, `"a" * 1` and `"a" / 1`
produce the same concatenated string as `"a" + 1`. -/
theorem c8_left_string_ignores_operator (fuel : Nat) (rt rt1 rt2 : RT)
    (fr fr1 fr2 : StackFrame) (left right : ExprNode) (c : Char)
    (hc : c = '+' ∨ c = '-' ∨ c = '*' ∨ c = '/') (s : String) (rv : Value)
    (h1 : walkTree fuel rt left fr = .ok (.EmString s, rt1, fr1))
    (h2 : walkTree fuel rt1 right fr1 = .ok (rv, rt2, fr2)) :
    doOperation (fuel+1) rt (.Operator c) left right fr =
      .ok (.EmString (s ++ render fuel rv), rt2, fr2) := by
  rcases hc with hc | hc | hc | hc <;> subst hc <;>
    (simp only [doOperation, h1, h2, ok_bind]; rfl)

theorem c8_left_string_ignores_operator_witness :
    (doOperation 5 rt0 (.Operator '-') (.StrLiteral "a") (.NumLiteral 1) [] =
      .ok (.EmString "a1", rt0, [])) ∧
    (doOperation 5 rt0 (.Operator '*') (.StrLiteral "a") (.NumLiteral 1) [] =
      .ok (.EmString "a1", rt0, [])) ∧
    (doOperation 5 rt0 (.Operator '/') (.StrLiteral "a") (.NumLiteral 1) [] =
      .ok (.EmString "a1", rt0, [])) := by
  refine ⟨?_, ?_, ?_⟩ <;>
    exact c8_left_string_ignores_operator 4 rt0 rt0 rt0 [] [] []
      (.StrLiteral "a") (.NumLiteral 1) _ (by simp) "a" (.Float 1) rfl rfl

/-- C9: an indexed assignment whose index expression evaluates to a
non-`Number` value, with the target name bound in the frame, neither fails
nor mutates anything: `update_array_index` silently skips the write and the
assignment still yields the right-hand value. -/
theorem c9_non_number_index_silently_skipped (fuel : Nat) (rt rt1 rt2 : RT)
    (fr fr1 fr2 : StackFrame) (name : String) (iE rhs : ExprNode)
    (idxv val w : Value)
    (h1 : walkTree (fuel+1) rt iE fr = .ok (idxv, rt1, fr1))
    (hidx : idxv.isFloat = false)
    (h2 : walkTree (fuel+1) rt1 rhs fr1 = .ok (val, rt2, fr2))
    (hw : lookupVar fr2 name = some w) :
    walkTree (fuel+4) rt (.Operation .Equal (.Index (.Name name) iE) rhs) fr =
      .ok (val, RT.clear rt2, fr2) := by
  show walkTree (fuel+2+2) rt (.Operation .Equal (.Index (.Name name) iE) rhs) fr = _
  rw [walkTree_operation]
  simp only [doOperation, h1, h2, ok_bind, updateArrayIndex, hw]
  cases idxv <;> simp_all [Value.isFloat]

theorem c9_non_number_index_silently_skipped_witness :
    walkTree 11 rt0 (.Operation .Equal (.Index (.Name "a") (.StrLiteral "z"))
        (.NumLiteral 7)) [("a", .EmArray [.Float 1])] =
      .ok (.Float 7, RT.clear rt0, [("a", .EmArray [.Float 1])]) :=
  c9_non_number_index_silently_skipped 7 rt0 (RT.clear rt0) (RT.clear rt0)
    [("a", .EmArray [.Float 1])] [("a", .EmArray [.Float 1])] [("a", .EmArray [.Float 1])]
    "a" (.StrLiteral "z") (.NumLiteral 7) (.EmString "z") (.Float 7)
    (.EmArray [.Float 1]) rfl rfl rfl rfl

/-- C10: indexing a non-empty array with a negative number yields the element
at index 0 (the negative float saturates to 0 under `as usize`) rather than
an index error; the index `Err` arises only for a saturated/truncated index
past the last element, and the not-indexable `Err` only for a non-array
target. -/
theorem c10_negative_index_saturates_to_zero (fuel : Nat) (rt rt1 rt2 : RT)
    (fr fr1 fr2 : StackFrame) (ident index : ExprNode) :
    (∀ x xs q, walkTree (fuel+1) rt ident fr = .ok (.EmArray (x :: xs), rt1, fr1) →
      walkTree (fuel+1) rt1 index fr1 = .ok (.Float q, rt2, fr2) →
      q < 0 →
      indexArray (fuel+2) rt ident index fr = .ok (x, rt2, fr2)) ∧
    (∀ v q, walkTree (fuel+1) rt ident fr = .ok (.EmArray v, rt1, fr1) →
      walkTree (fuel+1) rt1 index fr1 = .ok (.Float q, rt2, fr2) →
      v.length ≤ f32AsUsize q →
      indexArray (fuel+2) rt ident index fr = .err (oobIndexMsg (f32AsUsize q))) ∧
    (∀ arr q, walkTree (fuel+1) rt ident fr = .ok (arr, rt1, fr1) →
      walkTree (fuel+1) rt1 index fr1 = .ok (.Float q, rt2, fr2) →
      arr.isArrayVal = false →
      indexArray (fuel+2) rt ident index fr =
        .err ("Type " ++ render fuel arr ++ " isn't indexable")) := by
  refine ⟨?_, ?_, ?_⟩
  · intro x xs q h1 h2 hq
    have hz : f32AsUsize q = 0 := by simp [f32AsUsize, hq]
    simp only [indexArray, h1, h2, ok_bind, indexValue, hz]
    rfl
  · intro v q h1 h2 hlen
    have hnone : v.get? (f32AsUsize q) = none := by
      simpa using List.get?_eq_none.mpr hlen
    simp only [indexArray, h1, h2, ok_bind, indexValue, hnone]
  · intro arr q h1 h2 harr
    simp only [indexArray, h1, h2, ok_bind, indexValue]
    cases arr <;> simp_all [Value.isArrayVal]

theorem c10_negative_index_saturates_to_zero_witness :
    (indexArray 9 rt0 (.Name "a") (.NumLiteral (-3))
        [("a", .EmArray [.Float 1, .Float 2])] =
      .ok (.Float 1, RT.clear rt0, [("a", .EmArray [.Float 1, .Float 2])])) ∧
    (indexArray 9 rt0 (.Name "a") (.NumLiteral 5) [("a", .EmArray [.Float 1])] =
      .err (oobIndexMsg 5)) ∧
    (indexArray 9 rt0 (.NumLiteral 3) (.NumLiteral 0) [] =
      .err "Type 3 isn't indexable") := by
  refine ⟨?_, ?_, ?_⟩
  · exact (c10_negative_index_saturates_to_zero 7 rt0 (RT.clear rt0) (RT.clear rt0)
      [("a", .EmArray [.Float 1, .Float 2])] [("a", .EmArray [.Float 1, .Float 2])]
      [("a", .EmArray [.Float 1, .Float 2])] (.Name "a") (.NumLiteral (-3))).1
      (.Float 1) [.Float 2] (-3) rfl rfl (by norm_num)
  · have h := (c10_negative_index_saturates_to_zero 7 rt0 (RT.clear rt0) (RT.clear rt0)
      [("a", .EmArray [.Float 1])] [("a", .EmArray [.Float 1])]
      [("a", .EmArray [.Float 1])] (.Name "a") (.NumLiteral 5)).2.1
      [.Float 1] 5 rfl rfl (by decide)
    simpa using h
  · exact (c10_negative_index_saturates_to_zero 7 rt0 rt0 rt0 [] [] []
      (.NumLiteral 3) (.NumLiteral 0)).2.2 (.Float 3) 0 rfl rfl rfl

/-- C5: constructing `new C(args)` when `C` has an `~init` with one implicit
receiver parameter plus `N` further parameters fails with the constructor
arity error precisely when the number of supplied arguments differs from `N`
(`args.len() != params.len() - 1`); with matching arity the arity gate passes
and evaluation proceeds to the constructor run. -/
theorem c5_init_arity (fuel : Nat) (rt : RT) (fr : StackFrame) (cn : String)
    (e : EmObject) (fnm : Expression) (params : List Value) (body : ExprNode)
    (initArgs : List ExprNode) (nm : Value) (N : Nat)
    (hheap : lookupVar rt.heap cn = some (.Object e))
    (hinit : getProp e "~init" = some (.Function fnm params body))
    (hname : getProp e "~name" = some nm)
    (hlen : params.length = N + 1) :
    (initArgs.length ≠ N →
      doInit (fuel+1) rt (.Ident cn) initArgs fr =
        .err (initArityMsg (render fuel nm) (N + 1) initArgs.length)) ∧
    (initArgs.length = N →
      doInit (fuel+1) rt (.Ident cn) initArgs fr =
        runInit fuel rt e params body initArgs fr) := by
  constructor
  · intro hne
    simp [doInit, hheap, hinit, hname, hlen, hne]
  · intro heq
    simp [doInit, hheap, hinit, hname, hlen, heq]

theorem c5_init_arity_witness :
    (doInit 20 rtC (.Ident "C") [] [] = .err (initArityMsg "C" 2 0)) ∧
    (doInit 20 rtC (.Ident "C") [.NumLiteral 1] [] =
      .ok (.Object [("~name", .EmString "C"),
            ("~init", .Function (.Ident "~init") [.Name "self", .Name "x"] sampleInitBody),
            ("x", .Float 1)], rtC, [])) := by
  constructor
  · exact (c5_init_arity 19 rtC [] "C"
      [("~name", .EmString "C"),
       ("~init", .Function (.Ident "~init") [.Name "self", .Name "x"] sampleInitBody)]
      (.Ident "~init") [.Name "self", .Name "x"] sampleInitBody [] (.EmString "C") 1
      rfl rfl rfl rfl).1 (by decide)
  · exact ((c5_init_arity 19 rtC [] "C"
      [("~name", .EmString "C"),
       ("~init", .Function (.Ident "~init") [.Name "self", .Name "x"] sampleInitBody)]
      (.Ident "~init") [.Name "self", .Name "x"] sampleInitBody [.NumLiteral 1]
      (.EmString "C") 1 rfl rfl rfl rfl).2 rfl).trans rfl

/-- C6 counterexample: in the legacy gem evaluator the assignment
`x = 5` binds 5 to `x` but yields `Null`, not the assigned value, refuting
the claim for that evaluator. -/
theorem c6_gem_assignment_counterexample :
    (Gem.walkTree 5 ⟨[], false⟩ (.Operation .Equal (.Name "x") (.NumLiteral 5)) [] =
      .ok (.Null, ⟨[], false⟩, [("x", .Float 5)])) ∧
    Gem.Value.Null ≠ Gem.Value.Float 5 :=
  ⟨rfl, by simp⟩

/-- C6 (amended): in the current evaluator an assignment `name = expr`
evaluates `expr` in the current frame, binds the result under `name` in that
frame, and yields the assigned value; the legacy gem evaluator evaluates and
binds identically but yields `Null` instead of the assigned value. -/
theorem c6_assignment_amended (fuel : Nat) :
    (∀ (rt rt1 : RT) (fr fr1 : StackFrame) (n : String) (rhs : ExprNode) (v : Value),
      walkTree fuel rt rhs fr = .ok (v, rt1, fr1) →
      walkTree (fuel+3) rt (.Operation .Equal (.Name n) rhs) fr =
        .ok (v, RT.clear rt1, setVar fr1 n v)) ∧
    (∀ (rt rt1 : Gem.RT) (fr fr1 : Gem.StackFrame) (n : String) (rhs : ExprNode)
      (v : Gem.Value),
      Gem.walkTree fuel rt rhs fr = .ok (v, rt1, fr1) →
      Gem.walkTree (fuel+3) rt (.Operation .Equal (.Name n) rhs) fr =
        .ok (.Null, ⟨rt1.heap, false⟩, Gem.setVar fr1 n v)) := by
  constructor
  · intro rt rt1 fr fr1 n rhs v h
    simp only [walkTree, walkTreeArm, doOperation, h, ok_bind]
  · intro rt rt1 fr fr1 n rhs v h
    simp only [Gem.walkTree, Gem.walkTreeArm, Gem.doOperation, h, ok_bind]

theorem c6_assignment_amended_witness :
    (walkTree 5 rt0 (.Operation .Equal (.Name "x") (.NumLiteral 5)) [] =
      .ok (.Float 5, rt0, [("x", .Float 5)])) ∧
    (Gem.walkTree 5 ⟨[], false⟩ (.Operation .Equal (.Name "x") (.NumLiteral 5)) [] =
      .ok (.Null, ⟨[], false⟩, [("x", .Float 5)])) :=
  ⟨(c6_assignment_amended 2).1 rt0 rt0 [] [] "x" (.NumLiteral 5) (.Float 5) rfl,
   (c6_assignment_amended 2).2 ⟨[], false⟩ ⟨[], false⟩ [] [] "x" (.NumLiteral 5)
     (.Float 5) rfl⟩

/-- Reduction of the block-child loop on a non-`ReturnVal` head. -/
theorem blockChildren_cons_nonReturn (fuel : Nat) (rt : RT) (c : ExprNode)
    (rest : List ExprNode) (fr : StackFrame) (ret : Value)
    (hc : c.isReturnVal = false) :
    blockChildren (fuel+1) rt (c :: rest) fr ret =
      match walkTree fuel rt c fr with
      | .ok (_, rt1, fr1) =>
          if rt1.returning then .ok (ret, rt1, fr1)
          else blockChildren fuel rt1 rest fr1 ret
      | .err m => .err m
      | .abort m => .abort m
      | .timeout => .timeout := by
  cases c <;> first
    | rfl
    | simp [ExprNode.isReturnVal] at hc

/-- C2 counterexample: a failing argument of the builtin call
`print(nosuch())` aborts the process (the `.unwrap()` panic) instead of
propagating the recoverable error, refuting the claim as stated. -/
theorem c2_builtin_arg_abort_counterexample :
    (walkTree 10 rt0 (.Call (.Ident "print") [.Call (.Ident "nosuch") []]) [] =
      .abort (unwrapErrMsg "Couldn't find identifier nosuch")) ∧
    (Res.abort (unwrapErrMsg "Couldn't find identifier nosuch") ≠
      (Res.err "Couldn't find identifier nosuch" : Res EvalOut)) :=
  ⟨rfl, by simp⟩

/-- C2 (amended): an error from a child evaluation propagates unchanged
through block evaluation, through user-function-call argument evaluation and
through arithmetic operand evaluation; but a failing argument of a *builtin*
call aborts the whole process (`unwrap` panic) instead of propagating. -/
theorem c2_error_propagation_amended (fuel : Nat) :
    (∀ (rt : RT) (c : ExprNode) (rest : List ExprNode) (fr : StackFrame) (m : String),
      c.isReturnVal = false → walkTree fuel rt c fr = .err m →
      walkTree (fuel+2) rt (.Block (c :: rest)) fr = .err m) ∧
    (∀ (rt : RT) (v : ExprNode) (rest : List ExprNode) (fr : StackFrame) (m : String),
      walkTree fuel rt v fr = .err m →
      walkTree (fuel+2) rt (.Block (.ReturnVal v :: rest)) fr = .err m) ∧
    (∀ (rt : RT) (fn p : String) (fnm : Expression) (body argE : ExprNode)
       (fr : StackFrame) (m : String),
      builtins fn = none →
      lookupVar rt.heap fn = some (.Function fnm [Value.Name p] body) →
      walkTree fuel rt argE fr = .err m →
      doCall (fuel+2) rt (.Ident fn) [argE] fr = .err m) ∧
    (∀ (rt : RT) (c : Char) (left right : ExprNode) (fr : StackFrame) (m : String),
      c ≠ '.' →
      walkTree fuel rt left fr = .err m →
      doOperation (fuel+1) rt (.Operator c) left right fr = .err m) ∧
    (∀ (rt : RT) (bn : String) (bf : List Value → Value) (argE : ExprNode)
       (rest : List ExprNode) (fr : StackFrame) (m : String),
      builtins bn = some bf →
      walkTree fuel rt argE fr = .err m →
      doCall (fuel+2) rt (.Ident bn) (argE :: rest) fr = .abort (unwrapErrMsg m)) := by
  refine ⟨?_, ?_, ?_, ?_, ?_⟩
  · intro rt c rest fr m hc h
    rw [walkTree_block, blockChildren_cons_nonReturn _ _ _ _ _ _ hc, h]
  · intro rt v rest fr m h
    rw [walkTree_block]
    simp only [blockChildren, h]
  · intro rt fn p fnm body argE fr m hb hh h
    simp only [doCall, hb, hh, List.length_cons, List.length_nil, ne_eq, not_true_eq_false,
      reduceIte, bindArgs, h, err_bind]
  · intro rt c left right fr m hc h
    simp [doOperation, hc, h, err_bind]
  · intro rt bn bf argE rest fr m hb h
    simp only [doCall, hb, evalBuiltinArgs, h]

theorem c2_error_propagation_amended_witness :
    (walkTree 5 rt0 (.Block [.Call (.Ident "nosuch") [], .NumLiteral 1]) [] =
      .err "Couldn't find identifier nosuch") ∧
    (walkTree 5 rt0 (.Block [.ReturnVal (.Call (.Ident "nosuch") [])]) [] =
      .err "Couldn't find identifier nosuch") ∧
    (doCall 5 ⟨[("f", .Function (.Ident "f") [.Name "p"] (.Block []))], false⟩
        (.Ident "f") [.Call (.Ident "nosuch") []] [] =
      .err "Couldn't find identifier nosuch") ∧
    (doOperation 4 rt0 (.Operator '+') (.Call (.Ident "nosuch") []) (.NumLiteral 1) [] =
      .err "Couldn't find identifier nosuch") ∧
    (doCall 5 rt0 (.Ident "print") [.Call (.Ident "nosuch") []] [] =
      .abort (unwrapErrMsg "Couldn't find identifier nosuch")) := by
  refine ⟨?_, ?_, ?_, ?_, ?_⟩
  · exact (c2_error_propagation_amended 3).1 rt0 (.Call (.Ident "nosuch") [])
      [.NumLiteral 1] [] "Couldn't find identifier nosuch" rfl rfl
  · exact (c2_error_propagation_amended 3).2.1 rt0 (.Call (.Ident "nosuch") [])
      [] [] "Couldn't find identifier nosuch" rfl
  · exact (c2_error_propagation_amended 3).2.2.1
      ⟨[("f", .Function (.Ident "f") [.Name "p"] (.Block []))], false⟩
      "f" "p" (.Ident "f") (.Block []) (.Call (.Ident "nosuch") []) []
      "Couldn't find identifier nosuch" rfl rfl rfl
  · exact (c2_error_propagation_amended 3).2.2.2.1 rt0 '+'
      (.Call (.Ident "nosuch") []) (.NumLiteral 1) [] "Couldn't find identifier nosuch"
      (by decide) rfl
  · exact (c2_error_propagation_amended 3).2.2.2.2 rt0 "print" (fun _ => .Null)
      (.Call (.Ident "nosuch") []) [] [] "Couldn't find identifier nosuch" rfl rfl

/-- C3 counterexample: the out-of-bounds indexed assignment `a[5] = 7` with
`a = [1]` aborts the process (a `Vec` index panic) instead of failing with
the recoverable index error, refuting the claim as stated. -/
theorem c3_index_assign_abort_counterexample :
    (walkTree 10 rt0 (.Operation .Equal (.Index (.Name "a") (.NumLiteral 5))
        (.NumLiteral 7)) [("a", .EmArray [.Float 1])] =
      .abort (vecOobMsg 1 5)) ∧
    (Res.abort (vecOobMsg 1 5) ≠ (Res.err (oobIndexMsg 5) : Res EvalOut)) :=
  ⟨rfl, by simp⟩

/-- C3 (amended): an indexed assignment `name[i] = expr` whose target name is
unbound, bound to a non-array, or indexed out of bounds aborts the process
(`expect` / `panic!` / `Vec` index panic) rather than failing with a
recoverable propagated error; an in-bounds assignment with a `Number` index
is visible to subsequent reads of `name[i]` in the same frame. -/
theorem c3_index_assignment_amended (fuel : Nat) :
    (∀ (rt rt1 rt2 : RT) (fr fr1 fr2 : StackFrame) (name : String) (iE rhs : ExprNode)
       (idxv val : Value),
      walkTree (fuel+1) rt iE fr = .ok (idxv, rt1, fr1) →
      walkTree (fuel+1) rt1 rhs fr1 = .ok (val, rt2, fr2) →
      lookupVar fr2 name = none →
      walkTree (fuel+4) rt (.Operation .Equal (.Index (.Name name) iE) rhs) fr =
        .abort ("Unable to find variable " ++ name)) ∧
    (∀ (rt rt1 rt2 : RT) (fr fr1 fr2 : StackFrame) (name : String) (iE rhs : ExprNode)
       (q : Rat) (val w : Value),
      walkTree (fuel+1) rt iE fr = .ok (.Float q, rt1, fr1) →
      walkTree (fuel+1) rt1 rhs fr1 = .ok (val, rt2, fr2) →
      lookupVar fr2 name = some w →
      w.isArrayVal = false →
      walkTree (fuel+4) rt (.Operation .Equal (.Index (.Name name) iE) rhs) fr =
        .abort ("Expected array, found " ++ render fuel w)) ∧
    (∀ (rt rt1 rt2 : RT) (fr fr1 fr2 : StackFrame) (name : String) (iE rhs : ExprNode)
       (q : Rat) (val : Value) (v : List Value),
      walkTree (fuel+1) rt iE fr = .ok (.Float q, rt1, fr1) →
      walkTree (fuel+1) rt1 rhs fr1 = .ok (val, rt2, fr2) →
      lookupVar fr2 name = some (.EmArray v) →
      v.length ≤ f32AsUsize q →
      walkTree (fuel+4) rt (.Operation .Equal (.Index (.Name name) iE) rhs) fr =
        .abort (vecOobMsg v.length (f32AsUsize q))) ∧
    (∀ (rt rt1 rt2 : RT) (fr fr1 fr2 : StackFrame) (name : String) (iE rhs : ExprNode)
       (q : Rat) (val : Value) (v : List Value),
      walkTree (fuel+1) rt iE fr = .ok (.Float q, rt1, fr1) →
      walkTree (fuel+1) rt1 rhs fr1 = .ok (val, rt2, fr2) →
      lookupVar fr2 name = some (.EmArray v) →
      f32AsUsize q < v.length →
      (walkTree (fuel+4) rt (.Operation .Equal (.Index (.Name name) iE) rhs) fr =
        .ok (val, RT.clear rt2,
          setVar fr2 name (.EmArray (v.set (f32AsUsize q) val)))) ∧
      (∀ (m : Nat) (rt' : RT),
        walkTree (m+5) rt' (.Index (.Name name) (.NumLiteral q))
            (setVar fr2 name (.EmArray (v.set (f32AsUsize q) val))) =
          .ok (val, RT.clear rt',
            setVar fr2 name (.EmArray (v.set (f32AsUsize q) val))))) := by
  refine ⟨?_, ?_, ?_, ?_⟩
  · intro rt rt1 rt2 fr fr1 fr2 name iE rhs idxv val h1 h2 hw
    show walkTree (fuel+2+2) rt (.Operation .Equal (.Index (.Name name) iE) rhs) fr = _
    rw [walkTree_operation]
    simp only [doOperation, h1, h2, ok_bind, updateArrayIndex, hw]
  · intro rt rt1 rt2 fr fr1 fr2 name iE rhs q val w h1 h2 hw harr
    show walkTree (fuel+2+2) rt (.Operation .Equal (.Index (.Name name) iE) rhs) fr = _
    rw [walkTree_operation]
    simp only [doOperation, h1, h2, ok_bind, updateArrayIndex, hw]
    cases w <;> simp_all [Value.isArrayVal]
  · intro rt rt1 rt2 fr fr1 fr2 name iE rhs q val v h1 h2 hw hlen
    show walkTree (fuel+2+2) rt (.Operation .Equal (.Index (.Name name) iE) rhs) fr = _
    rw [walkTree_operation]
    simp only [doOperation, h1, h2, ok_bind, updateArrayIndex, hw,
      Nat.not_lt.mpr hlen, reduceIte]
  · intro rt rt1 rt2 fr fr1 fr2 name iE rhs q val v h1 h2 hw hlt
    constructor
    · show walkTree (fuel+2+2) rt (.Operation .Equal (.Index (.Name name) iE) rhs) fr = _
      rw [walkTree_operation]
      simp only [doOperation, h1, h2, ok_bind, updateArrayIndex, hw, hlt, reduceIte]
    · intro m rt'
      show walkTree (m+3+2) rt' (.Index (.Name name) (.NumLiteral q)) _ = _
      rw [walkTree_index]
      simp only [indexArray, walkTree, walkTreeArm, ok_bind, getVar,
        lookupVar_setVar_self, Option.getD_some, indexValue,
        getq_set_self _ _ _ (by simpa using hlt), RT.clear_clear]

theorem c3_index_assignment_amended_witness :
    (walkTree 10 rt0 (.Operation .Equal (.Index (.Name "z") (.NumLiteral 0))
        (.NumLiteral 7)) [] = .abort ("Unable to find variable " ++ "z")) ∧
    (walkTree 10 rt0 (.Operation .Equal (.Index (.Name "a") (.NumLiteral 0))
        (.NumLiteral 7)) [("a", .Float 2)] =
      .abort ("Expected array, found " ++ render 6 (.Float 2))) ∧
    (walkTree 10 rt0 (.Operation .Equal (.Index (.Name "a") (.NumLiteral 5))
        (.NumLiteral 7)) [("a", .EmArray [.Float 1])] = .abort (vecOobMsg 1 5)) ∧
    (walkTree 10 rt0 (.Operation .Equal (.Index (.Name "a") (.NumLiteral 0))
        (.NumLiteral 7)) [("a", .EmArray [.Float 1])] =
      .ok (.Float 7, RT.clear rt0, [("a", .EmArray [.Float 7])])) ∧
    (walkTree 9 rt0 (.Index (.Name "a") (.NumLiteral 0)) [("a", .EmArray [.Float 7])] =
      .ok (.Float 7, RT.clear rt0, [("a", .EmArray [.Float 7])])) := by
  refine ⟨?_, ?_, ?_, ?_, ?_⟩
  · exact (c3_index_assignment_amended 6).1 rt0 (RT.clear rt0) (RT.clear rt0)
      [] [] [] "z" (.NumLiteral 0) (.NumLiteral 7) (.Float 0) (.Float 7) rfl rfl rfl
  · exact (c3_index_assignment_amended 6).2.1 rt0 (RT.clear rt0) (RT.clear rt0)
      [("a", .Float 2)] [("a", .Float 2)] [("a", .Float 2)] "a"
      (.NumLiteral 0) (.NumLiteral 7) 0 (.Float 7) (.Float 2) rfl rfl rfl rfl
  · exact (c3_index_assignment_amended 6).2.2.1 rt0 (RT.clear rt0) (RT.clear rt0)
      [("a", .EmArray [.Float 1])] [("a", .EmArray [.Float 1])]
      [("a", .EmArray [.Float 1])] "a" (.NumLiteral 5) (.NumLiteral 7) 5 (.Float 7)
      [.Float 1] rfl rfl rfl (by decide)
  · exact ((c3_index_assignment_amended 6).2.2.2 rt0 (RT.clear rt0) (RT.clear rt0)
      [("a", .EmArray [.Float 1])] [("a", .EmArray [.Float 1])]
      [("a", .EmArray [.Float 1])] "a" (.NumLiteral 0) (.NumLiteral 7) 0 (.Float 7)
      [.Float 1] rfl rfl rfl (by decide)).1
  · exact ((c3_index_assignment_amended 6).2.2.2 rt0 (RT.clear rt0) (RT.clear rt0)
      [("a", .EmArray [.Float 1])] [("a", .EmArray [.Float 1])]
      [("a", .EmArray [.Float 1])] "a" (.NumLiteral 0) (.NumLiteral 7) 0 (.Float 7)
      [.Float 1] rfl rfl rfl (by decide)).2 4 rt0

/-- C4: invoking a method on an object bound to a name in the caller's frame
runs the body (whatever it is, in particular arbitrary `self` property
writes) in a fresh callee frame holding a copy of the receiver: with no
arguments to evaluate, a successful zero-argument method call leaves the
caller's frame exactly unchanged, so the name still holds the original
object. -/
theorem c4_method_value_semantics (fuel : Nat) (rt rt' : RT) (fr fr' : StackFrame)
    (o : String) (obj : EmObject) (op : Expression) (mem : ExprNode) (v : Value)
    (hobj : getVar fr o = .Object obj)
    (h : doMethod fuel rt (.Operation op (.Name o) mem) [] fr = .ok (v, rt', fr')) :
    fr' = fr ∧ getVar fr' o = .Object obj := by
  match fuel with
  | 0 => simp [doMethod] at h
  | k+1 =>
    simp only [doMethod] at h
    rcases hrecv : walkTree k rt (.Name o) fr with ⟨recv, rt1, fr1⟩ | m | m | _ <;>
      rw [hrecv] at h
    · rw [ok_bind] at h
      have hout := walkTree_name_ok hrecv
      rw [Prod.mk.injEq] at hout
      obtain ⟨e1, hout2⟩ := hout
      rw [Prod.mk.injEq] at hout2
      obtain ⟨e2, e3⟩ := hout2
      subst e1 e2 e3
      rw [hobj] at h
      rcases hgp : getProp obj (ExprNode.inner mem) with _ | mval <;>
        simp only [hgp] at h
      · exact absurd h (by simp)
      · cases mval
        case Function n p body =>
          dsimp only at h
          by_cases hp0 : p.length = 0
          · rw [if_pos hp0] at h
            exact absurd h (by simp)
          · rw [if_neg hp0] at h
            by_cases ha : ([] : List ExprNode).length ≠ p.length - 1
            · rw [if_pos ha] at h
              rcases hnm : getProp obj "~name" with _ | nmv <;> rw [hnm] at h <;>
                exact absurd h (by simp)
            · rw [if_neg ha] at h
              have hk : k ≠ 0 := by
                rintro rfl
                simp [walkTree] at hrecv
              obtain ⟨k', rfl⟩ := Nat.exists_eq_succ_of_ne_zero hk
              simp only [bindArgs, ok_bind] at h
              rcases hbody : walkTree (k'+1) (RT.clear rt) body
                  (setVar [] "self" (.Object obj)) with ⟨vb, rt3, fr3⟩ | m | m | _ <;>
                rw [hbody] at h
              · rw [ok_bind] at h
                rw [Res.ok.injEq, Prod.mk.injEq] at h
                obtain ⟨_, h2⟩ := h
                rw [Prod.mk.injEq] at h2
                obtain ⟨_, hfr⟩ := h2
                exact ⟨hfr.symm, hfr ▸ hobj⟩
              · exact absurd h (by simp [err_bind])
              · exact absurd h (by simp [abort_bind])
              · exact absurd h (by simp [timeout_bind])
        all_goals simp at h
    · exact absurd h (by simp [err_bind])
    · exact absurd h (by simp [abort_bind])
    · exact absurd h (by simp [timeout_bind])

theorem c4_method_value_semantics_witness :
    (doMethod 20 rt0 (.Operation (.Operator '.') (.Name "o") (.Name "m")) []
        [("o", sampleReceiver)] =
      .ok (.Null, ⟨[], false⟩, [("o", sampleReceiver)])) ∧
    ([("o", sampleReceiver)] : StackFrame) = [("o", sampleReceiver)] ∧
    getVar [("o", sampleReceiver)] "o" = sampleReceiver := by
  refine ⟨rfl, ?_, ?_⟩
  · exact (c4_method_value_semantics 20 rt0 ⟨[], false⟩ [("o", sampleReceiver)]
      [("o", sampleReceiver)] "o"
      [("~name", .EmString "C"), ("m", .Function (.Ident "m") [.Name "self"] sampleMethodBody)]
      (.Operator '.') (.Name "m") .Null rfl rfl).1
  · exact (c4_method_value_semantics 20 rt0 ⟨[], false⟩ [("o", sampleReceiver)]
      [("o", sampleReceiver)] "o"
      [("~name", .EmString "C"), ("m", .Function (.Ident "m") [.Name "self"] sampleMethodBody)]
      (.Operator '.') (.Name "m") .Null rfl rfl).2

/-- Reduction of `walk_tree` on every non-`Block` node: the dispatched arm
followed by the trailing flag reset. -/
theorem walkTree_nonBlock (fuel : Nat) (rt : RT) (node : ExprNode) (fr : StackFrame)
    (hb : node.isBlock = false) :
    walkTree (fuel+1) rt node fr =
      match walkTreeArm fuel rt node fr with
      | .ok (v, rt1, fr1) => .ok (v, RT.clear rt1, fr1)
      | .err m => .err m
      | .abort m => .abort m
      | .timeout => .timeout := by
  cases node <;> first
    | rfl
    | simp [ExprNode.isBlock] at hb

/-- C1: the return-in-progress signal is the evaluator's `returning` flag:
a successful `return` keyword call leaves it set; every successful
non-`Block` `walk_tree` call clears it on the way out; `Block` evaluation
goes through the child loop without the trailing reset, preserves it on an
empty block, and reads it after each non-`ReturnVal` child to stop the
remaining children; while/for iteration reads it after the body to stop
further iterations (the for loop also skips its increment then). -/
theorem c1_return_signal (fuel : Nat) :
    (∀ (rt rt' : RT) (args : List ExprNode) (fr fr' : StackFrame) (v : Value),
      doCall fuel rt (.Key "return") args fr = .ok (v, rt', fr') →
      rt'.returning = true) ∧
    (∀ (rt rt' : RT) (node : ExprNode) (fr fr' : StackFrame) (v : Value),
      node.isBlock = false →
      walkTree fuel rt node fr = .ok (v, rt', fr') →
      rt'.returning = false) ∧
    (∀ (rt : RT) (v : List ExprNode) (fr : StackFrame),
      walkTree (fuel+1) rt (.Block v) fr = blockChildren fuel rt v fr .Null) ∧
    (∀ (rt : RT) (fr : StackFrame) (ret : Value),
      blockChildren (fuel+1) rt [] fr ret = .ok (ret, rt, fr)) ∧
    (∀ (rt rt1 : RT) (c : ExprNode) (rest : List ExprNode) (fr fr1 : StackFrame)
       (ret v1 : Value),
      c.isReturnVal = false →
      walkTree fuel rt c fr = .ok (v1, rt1, fr1) →
      blockChildren (fuel+1) rt (c :: rest) fr ret =
        if rt1.returning then .ok (ret, rt1, fr1)
        else blockChildren fuel rt1 rest fr1 ret) ∧
    (∀ (rt rt1 rt2 : RT) (con block : ExprNode) (fr fr1 fr2 : StackFrame)
       (ret c r : Value),
      walkTree fuel rt con fr = .ok (c, rt1, fr1) →
      c.isTrueVal = true →
      walkTree fuel rt1 block fr1 = .ok (r, rt2, fr2) →
      whileLoop (fuel+1) rt con block fr ret =
        if rt2.returning then .ok (r, rt2, fr2)
        else whileLoop fuel rt2 con block fr2 r) ∧
    (∀ (rt rt1 rt2 : RT) (con inc block : ExprNode) (fr fr1 fr2 : StackFrame)
       (ret c r : Value),
      walkTree fuel rt con fr = .ok (c, rt1, fr1) →
      c.isTrueVal = true →
      walkTree fuel rt1 block fr1 = .ok (r, rt2, fr2) →
      forLoop (fuel+1) rt con inc block fr ret =
        if rt2.returning then .ok (r, rt2, fr2)
        else match walkTree fuel rt2 inc fr2 with
          | .ok (_, rt3, fr3) => forLoop fuel rt3 con inc block fr3 r
          | .err m => .err m
          | .abort m => .abort m
          | .timeout => .timeout) := by
  refine ⟨?_, ?_, ?_, ?_, ?_, ?_, ?_⟩
  · intro rt rt' args fr fr' v h
    match fuel with
    | 0 => simp [doCall] at h
    | 1 =>
        cases args with
        | nil => simp [doCall] at h
        | cons a rest => simp [doCall, keyword] at h
    | k+2 =>
        simp only [doCall] at h
        cases args with
        | nil => simp at h
        | cons a rest =>
            simp only [keyword] at h
            rcases hop : keywordOperand k rt a fr with ⟨tmp, rt1, fr1⟩ | m | m | _ <;>
              rw [hop] at h
            · rw [ok_bind] at h
              simp only [reduceIte] at h
              rw [Res.ok.injEq, Prod.mk.injEq] at h
              obtain ⟨_, h2⟩ := h
              rw [Prod.mk.injEq] at h2
              obtain ⟨h2, _⟩ := h2
              rw [← h2]
            · exact absurd h (by simp [err_bind])
            · exact absurd h (by simp [abort_bind])
            · exact absurd h (by simp [timeout_bind])
  · intro rt rt' node fr fr' v hb h
    match fuel with
    | 0 => simp [walkTree] at h
    | k+1 =>
        rw [walkTree_nonBlock k rt node fr hb] at h
        rcases harm : walkTreeArm k rt node fr with ⟨a, b, c⟩ | m | m | _ <;>
          rw [harm] at h
        · rw [Res.ok.injEq, Prod.mk.injEq] at h
          obtain ⟨_, h2⟩ := h
          rw [Prod.mk.injEq] at h2
          obtain ⟨h2, _⟩ := h2
          rw [← h2]
          rfl
        · exact absurd h (by simp)
        · exact absurd h (by simp)
        · exact absurd h (by simp)
  · intro rt v fr
    exact walkTree_block fuel rt v fr
  · intro rt fr ret
    rfl
  · intro rt rt1 c rest fr fr1 ret v1 hc h
    rw [blockChildren_cons_nonReturn fuel rt c rest fr ret hc, h]
  · intro rt rt1 rt2 con block fr fr1 fr2 ret c r h1 hc h2
    simp only [whileLoop, h1, ok_bind, hc, if_true, h2]
  · intro rt rt1 rt2 con inc block fr fr1 fr2 ret c r h1 hc h2
    simp only [forLoop, h1, ok_bind, hc, if_true, h2]
    by_cases hret : rt2.returning
    · simp [hret]
    · simp only [hret, if_false]
      rcases hinc : walkTree fuel rt2 inc fr2 with ⟨a, b, c'⟩ | m | m | _ <;>
        simp [hinc, ok_bind, err_bind, abort_bind, timeout_bind]

theorem c1_return_signal_witness :
    (doCall 6 rt0 (.Key "return") [.NumLiteral 1] [] =
      .ok (.Float 1, ⟨[], true⟩, [])) ∧
    ((⟨[], true⟩ : RT).returning = true) ∧
    (walkTree 5 rt0 (.NumLiteral 3) [] = .ok (.Float 3, rt0, [])) ∧
    (rt0.returning = false) ∧
    (walkTree 6 rt0 (.Block [.NumLiteral 1]) [] =
      blockChildren 5 rt0 [.NumLiteral 1] [] .Null) ∧
    (blockChildren 6 ⟨[], true⟩ [] [] .Null = .ok (.Null, ⟨[], true⟩, [])) ∧
    (blockChildren 6 ⟨[], true⟩ [.Block [], .Name "x"] [] .Null =
      .ok (.Null, ⟨[], true⟩, [])) ∧
    (whileLoop 6 rt0 (.BoolLiteral true) (.NumLiteral 0) [] .Null =
      whileLoop 5 rt0 (.BoolLiteral true) (.NumLiteral 0) [] (.Float 0)) ∧
    (forLoop 6 rt0 (.BoolLiteral true) (.NumLiteral 1) (.NumLiteral 0) [] .Null =
      forLoop 5 rt0 (.BoolLiteral true) (.NumLiteral 1) (.NumLiteral 0) [] (.Float 0)) := by
  refine ⟨rfl, ?_, rfl, ?_, ?_, ?_, ?_, ?_, ?_⟩
  · exact (c1_return_signal 6).1 rt0 ⟨[], true⟩ [.NumLiteral 1] [] [] (.Float 1) rfl
  · exact (c1_return_signal 5).2.1 rt0 rt0 (.NumLiteral 3) [] [] (.Float 3) rfl rfl
  · exact (c1_return_signal 5).2.2.1 rt0 [.NumLiteral 1] []
  · exact (c1_return_signal 5).2.2.2.1 ⟨[], true⟩ [] .Null
  · have h := (c1_return_signal 5).2.2.2.2.1 ⟨[], true⟩ ⟨[], true⟩ (.Block [])
      [.Name "x"] [] [] .Null .Null rfl rfl
    simpa using h
  · have h := (c1_return_signal 5).2.2.2.2.2.1 rt0 rt0 rt0 (.BoolLiteral true)
      (.NumLiteral 0) [] [] [] .Null (.EmBool true) (.Float 0) rfl rfl rfl
    simpa using h
  · have h := (c1_return_signal 5).2.2.2.2.2.2 rt0 rt0 rt0 (.BoolLiteral true)
      (.NumLiteral 1) (.NumLiteral 0) [] [] [] .Null (.EmBool true) (.Float 0)
      rfl rfl rfl
    simpa using h

end EmScript
